import Mathlib

/-!
# dsss-transfer: a shallow embedding of the framing glue and its checked properties

The C sources embedded here are `src/dsss-transfer.c`, `src/dsssframegen.c` and
`src/dsssframesync.c`.

Conventions of the embedding:

* `unsigned char` buffers are lists of naturals (one entry per byte);
* `unsigned int` is a natural reduced modulo `2 ^ 32` where the C code can wrap;
* objects of the liquid-dsp and SoapySDR libraries (the LFSR `msequence`, the
  resampler, the oscillator, the frame generator state machine) are not part of
  the program: they enter as parameters, so every statement below holds for any
  behaviour of these libraries;
* a `NULL` result is `none` (or the constructor `null` where the C function can
  also leave through `exit`).
-/

namespace DsssTransfer

/-! ## Complex samples -/

/-- A complex number over a carrier `α`: the `float complex` of the C code, with
the carrier left generic (rationals for evaluation, reals for exact statements). -/
structure Cplx (α : Type) where
  re : α
  im : α
  deriving DecidableEq, Repr

namespace Cplx

variable {α : Type}

/-- Conversion of a real value to a complex one (imaginary part zero). -/
def ofReal [Zero α] (x : α) : Cplx α := ⟨x, 0⟩

/-- The constant `_Complex_I`. -/
def I [Zero α] [One α] : Cplx α := ⟨0, 1⟩

instance [Zero α] : Zero (Cplx α) := ⟨⟨0, 0⟩⟩

instance [Add α] : Add (Cplx α) := ⟨fun a b => ⟨a.re + b.re, a.im + b.im⟩⟩

instance [Add α] [Sub α] [Mul α] : Mul (Cplx α) :=
  ⟨fun a b => ⟨a.re * b.re - a.im * b.im, a.re * b.im + a.im * b.re⟩⟩

end Cplx

/-! ## Memory and loops -/

/-- Uninitialised memory for `n` elements (the result of `malloc`, or a local
array): the contents are whatever was left there, given by `garbage` (missing
entries read as zero). -/
def malloc_buf {γ : Type} [Zero γ] (garbage : List γ) (n : Nat) : List γ :=
  (List.range n).map (fun i => garbage.getD i 0)

/-- Result of `calloc` for `n` elements: all zero. -/
def calloc_buf {γ : Type} [Zero γ] (n : Nat) : List γ :=
  List.replicate n 0

/-- The loop `for (i = 0; i < n; i++) body`, threading the state through. -/
def for_loop {β : Type} (n : Nat) (body : Nat → β → β) (init : β) : β :=
  (List.range n).foldl (fun st i => body i st) init

/-! ## The LFSR primitive -/

/-- The `msequence` object of liquid-dsp: `create m g a` is
`msequence_create(m, g, a)` and `advance` is `msequence_advance`, returning the
output bit together with the advanced register. -/
structure Msequence (σ : Type) where
  create : Nat → Nat → Nat → σ
  advance : σ → Nat × σ

/-- A concrete Fibonacci LFSR in the style of liquid-dsp, used to evaluate the
constructors on examples: the register is `(m, g, v)` with the generator stored
without its implied low bit, the output bit is the parity of `v &&& g` and the
register shifts it in, keeping `m` bits. -/
def lfsr : Msequence (Nat × Nat × Nat) where
  create := fun m g a => (m, g >>> 1, a)
  advance := fun s =>
    let m := s.1
    let g := s.2.1
    let v := s.2.2
    let b := ((List.range (m + 1)).filter (fun i => (v &&& g).testBit i)).length % 2
    (b, (m, g, ((v <<< 1) ||| b) % 2 ^ m))

/-- The chip stored in `pn[i]` by one pass of a chip loop body started with the
register `m`: real part from the first output bit, imaginary part from the
second. -/
def pn_chip {σ α : Type} [Zero α] [One α] [Add α] [Sub α] [Mul α] [Neg α]
    (lf : Msequence σ) (sqrt1_2 : α) (m : σ) : Cplx α :=
  Cplx.ofReal (if (lf.advance m).1 ≠ 0 then sqrt1_2 else -sqrt1_2)
    + Cplx.ofReal (if (lf.advance (lf.advance m).2).1 ≠ 0 then sqrt1_2 else -sqrt1_2) * Cplx.I

/-! ## `dsssframegen_create_set` (src/dsssframegen.c) -/

/-- The fields of `struct dsssframegen_s` set by the constructor that the
properties below speak about. The two `synth_crcf` objects are represented by
the chip sequence each one was created from. -/
structure dsssframegen_s (α : Type) where
  k : Nat
  m : Nat
  preamble_pn : List (Cplx α)
  header_synth : List (Cplx α)
  payload_synth : List (Cplx α)
  header_user_len : Nat
  header_dec_len : Nat
  payload_dec_len : Nat
  payload_mod_len : Nat
  deriving DecidableEq, Repr

/-- Value of `DSSSFRAME_H_USER_DEFAULT`. -/
def DSSSFRAME_H_USER_DEFAULT : Nat := 8

/-- Value of `DSSSFRAME_H_DEC`. -/
def DSSSFRAME_H_DEC : Nat := 5

/-- Body of the two chip loops of `dsssframegen_create_set`:
`pn[i] = (msequence_advance(ms) ? M_SQRT1_2 : -M_SQRT1_2);`
`pn[i] += (msequence_advance(ms) ? M_SQRT1_2 : -M_SQRT1_2) * _Complex_I;`. -/
def dsssframegen_chip_body {σ α : Type} [Zero α] [One α] [Add α] [Sub α] [Mul α] [Neg α]
    (lf : Msequence σ) (sqrt1_2 : α) (i : Nat) (st : List (Cplx α) × σ) :
    List (Cplx α) × σ :=
  let a := lf.advance st.2
  let pn := st.1.set i (Cplx.ofReal (if a.1 ≠ 0 then sqrt1_2 else -sqrt1_2))
  let b := lf.advance a.2
  let pn := pn.set i
    (pn.getD i 0 + Cplx.ofReal (if b.1 ≠ 0 then sqrt1_2 else -sqrt1_2) * Cplx.I)
  (pn, b.2)

/-- The constructor `dsssframegen_create_set(_n, _fgprops)`. `sqrt1_2` is the
constant `M_SQRT1_2`; `garbage` is the content of freshly `malloc`ed memory. -/
def dsssframegen_create_set {σ α : Type} [Zero α] [One α] [Add α] [Sub α] [Mul α] [Neg α]
    (lf : Msequence σ) (sqrt1_2 : α) (garbage : List (Cplx α)) (_n : Nat) :
    Option (dsssframegen_s α) :=
  if _n < 2 ∨ _n > 64 then none
  else
    let preamble_pn := malloc_buf garbage 64
    let ms := lf.create 7 0x0089 1
    let preamble_pn := (for_loop 64 (dsssframegen_chip_body lf sqrt1_2) (preamble_pn, ms)).1
    let pn := malloc_buf garbage _n
    let ms := lf.create 7 0x00cb 0x53
    let pn := (for_loop _n (dsssframegen_chip_body lf sqrt1_2) (pn, ms)).1
    some {
      k := 2
      m := 7
      preamble_pn := preamble_pn
      header_synth := pn
      payload_synth := pn
      header_user_len := DSSSFRAME_H_USER_DEFAULT
      header_dec_len := DSSSFRAME_H_DEC + DSSSFRAME_H_USER_DEFAULT
      payload_dec_len := 0
      payload_mod_len := 0 }

/-! ## `dsssframesync_create_set` (src/dsssframesync.c) -/

/-- The fields of `struct dsssframesync_s` set by the constructor that the
properties below speak about. -/
structure dsssframesync_s (α : Type) where
  k : Nat
  m : Nat
  preamble_pn : List (Cplx α)
  preamble_rx : List (Cplx α)
  header_synth : List (Cplx α)
  payload_synth : List (Cplx α)
  npfb : Nat
  header_user_len : Nat
  payload_spread_len : Nat
  deriving DecidableEq, Repr

/-- Body of the two chip loops of `dsssframesync_create_set` (the same two
statements as in the generator, written again in that file). -/
def dsssframesync_chip_body {σ α : Type} [Zero α] [One α] [Add α] [Sub α] [Mul α] [Neg α]
    (lf : Msequence σ) (sqrt1_2 : α) (i : Nat) (st : List (Cplx α) × σ) :
    List (Cplx α) × σ :=
  let a := lf.advance st.2
  let pn := st.1.set i (Cplx.ofReal (if a.1 ≠ 0 then sqrt1_2 else -sqrt1_2))
  let b := lf.advance a.2
  let pn := pn.set i
    (pn.getD i 0 + Cplx.ofReal (if b.1 ≠ 0 then sqrt1_2 else -sqrt1_2) * Cplx.I)
  (pn, b.2)

/-- The constructor `dsssframesync_create_set(_n, _callback, _userdata)`; its
buffers come from `calloc`. -/
def dsssframesync_create_set {σ α : Type} [Zero α] [One α] [Add α] [Sub α] [Mul α] [Neg α]
    (lf : Msequence σ) (sqrt1_2 : α) (_n : Nat) : Option (dsssframesync_s α) :=
  if _n < 2 ∨ _n > 64 then none
  else
    let preamble_pn : List (Cplx α) := calloc_buf 64
    let preamble_rx : List (Cplx α) := calloc_buf 64
    let ms := lf.create 7 0x0089 1
    let preamble_pn := (for_loop 64 (dsssframesync_chip_body lf sqrt1_2) (preamble_pn, ms)).1
    let pn : List (Cplx α) := calloc_buf _n
    let ms := lf.create 7 0x00cb 0x53
    let pn := (for_loop _n (dsssframesync_chip_body lf sqrt1_2) (pn, ms)).1
    some {
      k := 2
      m := 7
      preamble_pn := preamble_pn
      preamble_rx := preamble_rx
      header_synth := pn
      payload_synth := pn
      npfb := 32
      header_user_len := DSSSFRAME_H_USER_DEFAULT
      payload_spread_len := _n }

/-! ## Header counter (src/dsss-transfer.c) -/

/-- The function `set_counter(header, counter)`: stores the counter in bytes 4..7. -/
def set_counter (header : List Nat) (counter : Nat) : List Nat :=
  let header := header.set 4 ((counter >>> 24) &&& 255)
  let header := header.set 5 ((counter >>> 16) &&& 255)
  let header := header.set 6 ((counter >>> 8) &&& 255)
  header.set 7 (counter &&& 255)

/-- The function `get_counter(header)`: the bytes are promoted, shifted and or-ed, and the
result is converted to `unsigned int`. -/
def get_counter (header : List Nat) : Nat :=
  ((header.getD 4 0 <<< 24) ||| (header.getD 5 0 <<< 16) ||| (header.getD 6 0 <<< 8)
    ||| header.getD 7 0) % 2 ^ 32

/-- The first four bytes of a buffer, as read by `memcpy(_, buf, 4)` and
`memcmp(_, buf, 4)`. -/
def first4 (buf : List Nat) : List Nat :=
  (List.range 4).map (fun i => buf.getD i 0)

/-! ## Sessions (src/dsss-transfer.c) -/

/-- A C string: its bytes, without the terminating NUL. -/
abbrev CString := List Nat

/-- The C function `tolower` on ASCII bytes, as used by `strcasecmp`. -/
def tolower (c : Nat) : Nat :=
  if 65 ≤ c ∧ c ≤ 90 then c + 32 else c

/-- The test `strcasecmp(a, b) == 0`. -/
def strcasecmp_eq (a b : CString) : Bool :=
  a.map tolower == b.map tolower

/-- The test `strncasecmp(a, b, n) == 0`. -/
def strncasecmp_eq (a b : CString) (n : Nat) : Bool :=
  (a.take n).map tolower == (b.take n).map tolower

/-- The string literal `"io"`. -/
def str_io : CString := [105, 111]

/-- The string literal `"file="`. -/
def str_file_eq : CString := [102, 105, 108, 101, 61]

/-- The enumeration `radio_type_t`, whose values are `IO`, `FILENAME` and
`SOAPYSDR` in the C source. -/
inductive radio_type_t
  | IO_TYPE
  | FILENAME
  | SOAPYSDR
  deriving DecidableEq, Repr

/-- The record `struct dsss_transfer_s`. Pointers and handles are naturals
(`none` is `NULL`); the two unions hold at most one handle; `id` is the array
`char id[5]`. The `float` field `audio_gain` is left out. -/
structure dsss_transfer_s where
  radio_type : radio_type_t
  radio_device : Option Nat
  radio_stream : Option Nat
  emit : Nat
  file : Option Nat
  sample_rate : Nat
  bit_rate : Nat
  frequency : Nat
  frequency_offset : Int
  spreading_factor : Nat
  crc : Nat
  inner_fec : Nat
  outer_fec : Nat
  id : List Nat
  dump : Option Nat
  stop : Nat
  data_callback : Nat
  callback_context : Nat
  timeout : Nat
  timeout_start : Int
  audio_converter : Option Nat
  deriving DecidableEq, Repr

/-- The two file-scope variables `stop` and `verbose`. -/
structure Globals where
  stop : Nat
  verbose : Nat
  deriving DecidableEq, Repr

/-- Value of `LIQUID_CRC_32` in the liquid-dsp enumeration `crc_scheme`. -/
def LIQUID_CRC_32 : Nat := 6

/-- Value of `LIQUID_FEC_UNKNOWN` in the liquid-dsp enumeration `fec_scheme`. -/
def LIQUID_FEC_UNKNOWN : Nat := 0

/-- Conversion of an integer to `long int` (64 bits, two's complement). -/
def to_long (x : Int) : Int :=
  (x + 2 ^ 63) % 2 ^ 64 - 2 ^ 63

/-- A session record after `bzero`. -/
def bzero_transfer : dsss_transfer_s where
  radio_type := .IO_TYPE
  radio_device := none
  radio_stream := none
  emit := 0
  file := none
  sample_rate := 0
  bit_rate := 0
  frequency := 0
  frequency_offset := 0
  spreading_factor := 0
  crc := 0
  inner_fec := 0
  outer_fec := 0
  id := [0, 0, 0, 0, 0]
  dump := none
  stop := 0
  data_callback := 0
  callback_context := 0
  timeout := 0
  timeout_start := 0
  audio_converter := none

/-- What the world outside the program answers during session creation:
whether `malloc` succeeds, the name lookup of liquid-dsp, `fopen` (path and
mode), the audio converter handle, and the SoapySDR calls (a result code of 0
is success). -/
structure CreateEnv where
  malloc_ok : Bool
  liquid_getopt_str2fec : CString → Nat
  fopen : CString → CString → Option Nat
  firhilbf_create : Nat
  SoapySDRDevice_makeStrArgs : CString → Option Nat
  SoapySDRDevice_setSampleRate : Nat → Int
  SoapySDRDevice_setFrequency : Int → Int
  SoapySDRDevice_setGains : CString → Int
  SoapySDRDevice_setupStream : Option Nat

/-- The string literal `"none"`. -/
def str_none : CString := [110, 111, 110, 101]

/-- The string literal `"h128"`. -/
def str_h128 : CString := [104, 49, 50, 56]

/-- An outside world in which every call succeeds and the two FEC names
`"none"` and `"h128"` are known (with their liquid-dsp numbers), used to
evaluate session creation on examples. -/
def sample_env : CreateEnv where
  malloc_ok := true
  liquid_getopt_str2fec := fun name =>
    if name = str_none then 1 else if name = str_h128 then 6 else LIQUID_FEC_UNKNOWN
  fopen := fun _ _ => some 3
  firhilbf_create := 1
  SoapySDRDevice_makeStrArgs := fun _ => some 1
  SoapySDRDevice_setSampleRate := fun _ => 0
  SoapySDRDevice_setFrequency := fun _ => 0
  SoapySDRDevice_setGains := fun _ => 0
  SoapySDRDevice_setupStream := some 2

/-- Outcome of session creation: `NULL`, a session, or the process left through
`exit(EXIT_FAILURE)` inside `SOAPYSDR_CHECK`. -/
inductive CreateResult
  | null
  | exited
  | session (transfer : dsss_transfer_s)
  deriving DecidableEq, Repr

/-- The call `strcpy(transfer->id, id)` into the zeroed array `char id[5]`. -/
def strcpy_id (id : CString) : List Nat :=
  (List.range 5).map (fun i => id.getD i 0)

/-- The last part of `dsss_transfer_create_callback`: the `switch` on the radio
type that opens the channel. The difference `frequency - frequency_offset` is
computed in `unsigned long`, that is modulo `2 ^ 64`. -/
def open_radio (env : CreateEnv) (radio_driver : CString) (emit : Nat) (gain : CString)
    (transfer : dsss_transfer_s) : CreateResult :=
  match transfer.radio_type with
  | .IO_TYPE => .session transfer
  | .FILENAME =>
    let f := if emit ≠ 0 then env.fopen (radio_driver.drop 5) [119, 98]
      else env.fopen (radio_driver.drop 5) [114, 98]
    let transfer := { transfer with radio_device := f }
    if transfer.radio_device = none then .null else .session transfer
  | .SOAPYSDR =>
    let transfer := { transfer with
      radio_device := env.SoapySDRDevice_makeStrArgs radio_driver }
    if transfer.radio_device = none then .null
    else if env.SoapySDRDevice_setSampleRate transfer.sample_rate ≠ 0 then .exited
    else if env.SoapySDRDevice_setFrequency
        (((transfer.frequency : Int) - transfer.frequency_offset) % 2 ^ 64) ≠ 0 then .exited
    else if env.SoapySDRDevice_setGains gain ≠ 0 then .exited
    else
      let transfer := { transfer with radio_stream := env.SoapySDRDevice_setupStream }
      if transfer.radio_stream = none then .null else .session transfer


/-- The block `if(audio) { ... } else { ... }` of `dsss_transfer_create_callback`;
`none` is its `return(NULL)`. -/
def audio_setup (env : CreateEnv) (audio : Nat) (transfer : dsss_transfer_s) :
    Option dsss_transfer_s :=
  if audio ≠ 0 then
    if transfer.radio_type = .IO_TYPE ∨ transfer.radio_type = .FILENAME then
      let transfer := { transfer with audio_converter := some env.firhilbf_create }
      let transfer := { transfer with sample_rate := transfer.sample_rate / 2 }
      let transfer := { transfer with
        frequency_offset :=
          to_long ((transfer.frequency : Int) - ((transfer.sample_rate / 2 : Nat) : Int)) }
      some { transfer with frequency := 0 }
    else none
  else some { transfer with audio_converter := none }

/-- The function `dsss_transfer_create_callback`. The `float` argument `ppm`
enters only through the map `x ↦ x * ((1000000.0 - ppm) / 1000000.0)` converted
back to `unsigned long`; that map is the argument `ppm` here. Each
`if (ok) { ... } else { return NULL; }` of the source is written with the
failing branch first. -/
def dsss_transfer_create_callback (env : CreateEnv) (radio_driver : CString) (emit : Nat)
    (data_callback callback_context : Nat) (sample_rate bit_rate frequency : Nat)
    (frequency_offset : Int) (gain : CString) (ppm : Nat → Nat) (spreading_factor : Nat)
    (inner_fec outer_fec id : CString) (dump : Option CString) (timeout audio : Nat) :
    CreateResult :=
  if env.malloc_ok = false then .null else
  let transfer := bzero_transfer
  let transfer := { transfer with
    radio_type :=
      if strcasecmp_eq radio_driver str_io then .IO_TYPE
      else if strncasecmp_eq radio_driver str_file_eq 5 then .FILENAME
      else .SOAPYSDR }
  let transfer := { transfer with
    stop := 0, emit := emit, file := none
    data_callback := data_callback, callback_context := callback_context }
  if sample_rate = 0 then .null else
  let transfer := { transfer with sample_rate := ppm sample_rate }
  if frequency = 0 then .null else
  let transfer := { transfer with frequency := ppm frequency }
  let transfer := { transfer with frequency_offset := frequency_offset }
  match audio_setup env audio transfer with
  | none => .null
  | some transfer =>
  if bit_rate = 0 then .null else
  let transfer := { transfer with bit_rate := bit_rate }
  if ¬ (spreading_factor ≥ 2) then .null else
  let transfer := { transfer with spreading_factor := spreading_factor }
  let transfer := { transfer with crc := LIQUID_CRC_32 }
  let transfer := { transfer with inner_fec := env.liquid_getopt_str2fec inner_fec }
  if transfer.inner_fec = LIQUID_FEC_UNKNOWN then .null else
  let transfer := { transfer with outer_fec := env.liquid_getopt_str2fec outer_fec }
  if transfer.outer_fec = LIQUID_FEC_UNKNOWN then .null else
  if ¬ (id.length ≤ 4) then .null else
  let transfer := { transfer with id := strcpy_id id }
  let opened := match dump with
    | some path => env.fopen path [119, 98]
    | none => none
  if dump.isSome ∧ opened = none then .null else
  let transfer := { transfer with dump := opened }
  let transfer := { transfer with timeout := timeout }
  open_radio env radio_driver emit gain transfer

/-! ## Reception of one frame -/

/-- What `frame_received` does to the outside: the three diagnostic messages
(with the counter and the id they print), `fflush(stderr)`, and the call
`transfer->data_callback(transfer->callback_context, payload, payload_size)`. -/
inductive RxEvent
  | corrupted_header (counter : Nat) (id : List Nat)
  | corrupted_payload (counter : Nat) (id : List Nat)
  | ignored (counter : Nat) (id : List Nat)
  | fflush_stderr
  | data_callback (callback context : Nat) (payload : List Nat) (payload_size : Nat)
  deriving DecidableEq, Repr

/-- Result of `frame_received`: the returned `int`, the session and the
file-scope variables afterwards, and what was done to the outside. -/
structure RxOutcome where
  ret : Int
  transfer : dsss_transfer_s
  globals : Globals
  events : List RxEvent
  deriving DecidableEq, Repr

/-- The callback `frame_received`; `now` is the value of `time(NULL)`. The
statistics argument is not used by the function and is left out. -/
def frame_received (g : Globals) (now : Int) (header : List Nat) (header_valid : Int)
    (payload : List Nat) (payload_size : Nat) (payload_valid : Int)
    (transfer : dsss_transfer_s) : RxOutcome :=
  let transfer := { transfer with timeout_start := now }
  let id := first4 header ++ [0]
  let counter := get_counter header
  let events : List RxEvent :=
    if header_valid = 0 ∨ payload_valid = 0 then
      if g.verbose ≠ 0 then
        (if header_valid = 0 then [RxEvent.corrupted_header counter id] else [])
          ++ (if payload_valid = 0 then [RxEvent.corrupted_payload counter id] else [])
          ++ [RxEvent.fflush_stderr]
      else []
    else if first4 id ≠ first4 transfer.id then
      if g.verbose ≠ 0 then [RxEvent.ignored counter id, RxEvent.fflush_stderr] else []
    else
      [RxEvent.data_callback transfer.data_callback transfer.callback_context
        payload payload_size]
  { ret := 0, transfer := transfer, globals := g, events := events }

/-- The data-callback invocations among the events of `frame_received`, each
with the function called, its context, and the payload and size it was given. -/
def callback_calls : List RxEvent → List (Nat × Nat × List Nat × Nat)
  | [] => []
  | RxEvent.data_callback callback context payload payload_size :: rest =>
    (callback, context, payload, payload_size) :: callback_calls rest
  | _ :: rest => callback_calls rest

/-! ## Transmission -/

/-- Conversion of a non-negative `double` (a rational) to `unsigned int`: the
fractional part is discarded. -/
def to_uint (x : ℚ) : Nat :=
  (Int.toNat (Int.floor x)) % 2 ^ 32

/-- The macro `MIN(x, y)`, that is `((x < y) ? x : y)`. -/
def MIN (x y : ℚ) : ℚ := if x < y then x else y

/-- The macro `MAX(x, y)`, that is `((x > y) ? x : y)`. -/
def MAX (x y : ℚ) : ℚ := if x > y then x else y

/-- The payload size computed at the start of `send_frames`:
`byte_rate = bit_rate / 8` and `payload_size = MIN(MAX(byte_rate * 0.1, 16), 8000)`.
The product `byte_rate * 0.1` is a `double`; `tenth` is that floating-point
product as a function of `byte_rate` (every `double` is a rational). -/
def payload_size (tenth : Nat → ℚ) (bit_rate : Nat) : Nat :=
  let byte_rate := bit_rate / 8
  to_uint (MIN (MAX (tenth byte_rate) 16) 8000)

/-- The exact product `byte_rate * 0.1`, one possible value of `tenth`. -/
def tenth_exact (byte_rate : Nat) : ℚ := (byte_rate : ℚ) * (1 / 10)

/-- The liquid-dsp objects used by `send_frames`, as state transformers: the
resampler (`msresamp_crcf_execute`, from input samples to output samples) and
the oscillator (`nco_crcf_mix_block_up`), with the states they are created in,
and the magnitude function `cabsf`. -/
structure TxLib (ρ R O : Type) where
  resampler : R
  oscillator : O
  msresamp_crcf_execute : R → List (Cplx ρ) → List (Cplx ρ) × R
  nco_crcf_mix_block_up : O → List (Cplx ρ) → List (Cplx ρ) × O
  cabsf : Cplx ρ → ρ

/-- What `send_frames` does to the outside, in order: calls of the data
callback, of `dsssframegen_assemble` and of `send_to_radio`. -/
inductive TxEvent (ρ : Type)
  | data_callback (context : Nat) (payload_size : Nat)
  | assemble (header : List Nat) (payload : List Nat) (n : Nat)
  | send_to_radio (samples : List (Cplx ρ)) (last : Int)

/-- The local state of `send_frames` while its loop runs. -/
structure TxState (ρ R O : Type) where
  header : List Nat
  counter : Nat
  resampler : R
  oscillator : O
  events : List (TxEvent ρ)

/-- One turn of the main loop of `send_frames`, as seen from outside: either
the loop condition finds a stop flag set, or the data callback is called and
returns `r` after writing `payload`; when a frame is then assembled,
`dsssframegen_write_samples` returns 0 for each block of `blocks` and a
non-zero value for `last_block`. -/
inductive TxStep (ρ : Type)
  | stop
  | data (r : Int) (payload : List Nat) (blocks : List (List (Cplx ρ)))
      (last_block : List (Cplx ρ))

/-- The loop `while((n > 0) && (frame_samples[n - 1] == 0)) n--;`. -/
def trim_padding {ρ : Type} [Zero ρ] [DecidableEq ρ] (frame_samples : List (Cplx ρ)) :
    Nat → Nat
  | 0 => 0
  | n + 1 => if frame_samples.getD n 0 = 0 then trim_padding frame_samples n else n + 1

/-- The loop computing `maximum_amplitude` over the first `n` samples. -/
def maximum_amplitude {ρ : Type} [LinearOrderedField ρ] (cabsf : Cplx ρ → ρ)
    (frame_samples : List (Cplx ρ)) (n : Nat) : ρ :=
  for_loop n
    (fun i m => if cabsf (frame_samples.getD i 0) > m then cabsf (frame_samples.getD i 0) else m)
    1

/-- The call `liquid_vectorcf_mulscalar(frame_samples, n, 0.75 / maximum_amplitude,
frame_samples)`: the first `n` samples are multiplied by the scalar. -/
def mulscalar {ρ : Type} [LinearOrderedField ρ] (frame_samples : List (Cplx ρ)) (n : Nat)
    (scalar : ρ) : List (Cplx ρ) :=
  (frame_samples.take n).map (fun x => x * Cplx.ofReal scalar) ++ frame_samples.drop n

/-- The body of the inner loop of `send_frames` after `dsssframegen_write_samples`
has filled `frame_samples` and returned `frame_complete`. -/
def send_block {ρ R O : Type} [LinearOrderedField ρ] (lib : TxLib ρ R O)
    (transfer : dsss_transfer_s) (frame_samples_size : Nat) (frame_complete : Int)
    (frame_samples : List (Cplx ρ)) (st : TxState ρ R O) : TxState ρ R O :=
  let n := frame_samples_size
  let n := if frame_complete ≠ 0 then trim_padding frame_samples n else n
  let maximum_amplitude := maximum_amplitude lib.cabsf frame_samples n
  let frame_samples := mulscalar frame_samples n (3 / 4 / maximum_amplitude)
  let out := lib.msresamp_crcf_execute st.resampler (frame_samples.take n)
  let mixed :=
    if transfer.frequency_offset ≠ 0 then lib.nco_crcf_mix_block_up st.oscillator out.1
    else (out.1, st.oscillator)
  { st with
    resampler := out.2
    oscillator := mixed.2
    events := st.events ++ [TxEvent.send_to_radio mixed.1 0] }

/-- The function `send_dummy_samples`: `delay` turns, each pushing one zero
sample through the resampler and sending what comes out. -/
def send_dummy_samples {ρ R O : Type} [LinearOrderedField ρ] (lib : TxLib ρ R O)
    (transfer : dsss_transfer_s) (delay : Nat) (last : Int) (st : TxState ρ R O) :
    TxState ρ R O :=
  for_loop delay
    (fun i st =>
      let zero_sample : Cplx ρ := 0
      let out := lib.msresamp_crcf_execute st.resampler [zero_sample]
      let mixed :=
        if transfer.frequency_offset ≠ 0 then lib.nco_crcf_mix_block_up st.oscillator out.1
        else (out.1, st.oscillator)
      { st with
        resampler := out.2
        oscillator := mixed.2
        events := st.events ++
          [TxEvent.send_to_radio mixed.1 (if i + 1 < delay then 0 else last)] })
    st

/-- The main loop `while((!stop) && (!transfer->stop))` of `send_frames`, run on
the turns of `steps`. The result says whether the loop was left (`true`) or the
listed turns ran out first (`false`). -/
def send_frames_loop {ρ R O : Type} [LinearOrderedField ρ]
    (lib : TxLib ρ R O) (transfer : dsss_transfer_s) (payload_size delay
    frame_samples_size : Nat) : List (TxStep ρ) → TxState ρ R O → TxState ρ R O × Bool
  | [], st => (st, false)
  | TxStep.stop :: _, st => (st, true)
  | TxStep.data r payload blocks last_block :: rest, st =>
    let st := { st with
      events := st.events ++ [TxEvent.data_callback transfer.callback_context payload_size] }
    if r < 0 then (st, true)
    else
      let n := r.toNat
      if n > 0 then
        let st := { st with events := st.events ++ [TxEvent.assemble st.header payload n] }
        let st := blocks.foldl
          (fun st b => send_block lib transfer frame_samples_size 0 b st) st
        let st := send_block lib transfer frame_samples_size 1 last_block st
        let st := { st with counter := (st.counter + 1) % 2 ^ 32 }
        let st := { st with header := set_counter st.header st.counter }
        send_frames_loop lib transfer payload_size delay frame_samples_size rest st
      else
        let st := send_dummy_samples lib transfer delay 0 st
        send_frames_loop lib transfer payload_size delay frame_samples_size rest st

/-- The function `send_frames`, as the list of what it does to the outside.
`stack` is the content of the uninitialised array `header`; `delay` and
`frame_samples_size` are the two sizes the source derives from the resampler
with floating-point arithmetic. -/
def send_frames {ρ R O : Type} [LinearOrderedField ρ] (lib : TxLib ρ R O)
    (tenth : Nat → ℚ) (stack : List Nat) (delay frame_samples_size : Nat)
    (transfer : dsss_transfer_s) (steps : List (TxStep ρ)) : List (TxEvent ρ) :=
  let payload_size := payload_size tenth transfer.bit_rate
  let header := malloc_buf stack 8
  let counter := 0
  let header := first4 transfer.id ++ header.drop 4
  let header := set_counter header counter
  let st : TxState ρ R O :=
    { header := header, counter := counter, resampler := lib.resampler
      oscillator := lib.oscillator, events := [] }
  let res := send_frames_loop lib transfer payload_size delay frame_samples_size steps st
  if res.2 then (send_dummy_samples lib transfer delay 1 res.1).events
  else res.1.events

/-- The headers given to `dsssframegen_assemble`, in call order. -/
def assembled_headers {ρ : Type} : List (TxEvent ρ) → List (List Nat)
  | [] => []
  | TxEvent.assemble header _ _ :: rest => header :: assembled_headers rest
  | _ :: rest => assembled_headers rest

/-- The data-callback results that `send_frames` gets to see: those of the turns
before the first turn that ends the loop (a stop flag, or a negative result). -/
def results_seen {ρ : Type} : List (TxStep ρ) → List Int
  | [] => []
  | TxStep.stop :: _ => []
  | TxStep.data r _ _ _ :: rest => if r < 0 then [] else r :: results_seen rest

/-- The big-endian encoding of a 32-bit value on four bytes. -/
def big_endian (c : Nat) : List Nat :=
  [c / 2 ^ 24 % 256, c / 2 ^ 16 % 256, c / 2 ^ 8 % 256, c % 256]

/-- A step of the transmit state that keeps the header and the counter and
assembles no frame. -/
def TxKeeps {ρ R O : Type} (st st2 : TxState ρ R O) : Prop :=
  st2.header = st.header ∧ st2.counter = st.counter
    ∧ assembled_headers st2.events = assembled_headers st.events

/-! ## The LFSR output stream -/

/-- The register of the LFSR after `j` calls of `msequence_advance`, starting
from the register `m`. -/
def msequence_state {σ : Type} (lf : Msequence σ) (m : σ) : Nat → σ
  | 0 => m
  | j + 1 => (lf.advance (msequence_state lf m j)).2

/-- Output bit number `j` (counted from 0) of the LFSR started in the register
`m`: the value returned by call number `j` of `msequence_advance`. -/
def msequence_bit {σ : Type} (lf : Msequence σ) (m : σ) (j : Nat) : Nat :=
  (lf.advance (msequence_state lf m j)).1

/-- The chip described by the specification for a pair of successive output
bits: a bit that is set gives `+sqrt1_2`, a bit that is clear gives `-sqrt1_2`;
the first bit decides the real part and the second the imaginary part. -/
def qpsk_chip {α : Type} [Neg α] (sqrt1_2 : α) (b0 b1 : Nat) : Cplx α :=
  ⟨if b0 ≠ 0 then sqrt1_2 else -sqrt1_2, if b1 ≠ 0 then sqrt1_2 else -sqrt1_2⟩

/-- The chip sequence described by the specification: `n` chips, chip `i` made
from output bits `2 * i` and `2 * i + 1` of the LFSR started in `m`. -/
def pn_sequence {σ α : Type} [Neg α] (lf : Msequence σ) (sqrt1_2 : α) (m : σ) (n : Nat) :
    List (Cplx α) :=
  (List.range n).map
    (fun i => qpsk_chip sqrt1_2 (msequence_bit lf m (2 * i)) (msequence_bit lf m (2 * i + 1)))

/-! ## Resampling ratios -/

/-- The local `samples_per_bit` of `send_frames` and `receive_frames`: the
product `transfer->spreading_factor * samples_per_symbol` is computed on
`unsigned int` (with `samples_per_symbol = 2`) and then converted to `float`;
floating-point values are taken as exact rationals. -/
def samples_per_bit (transfer : dsss_transfer_s) : ℚ :=
  (((transfer.spreading_factor * 2) % 2 ^ 32 : Nat) : ℚ)

/-- The local `resampling_ratio` of `send_frames`:
`(float) transfer->sample_rate / (transfer->bit_rate * samples_per_bit)`. -/
def send_frames_resampling_ratio (transfer : dsss_transfer_s) : ℚ :=
  (transfer.sample_rate : ℚ) / ((transfer.bit_rate : ℚ) * samples_per_bit transfer)

/-- The local `resampling_ratio` of `receive_frames`:
`(transfer->bit_rate * samples_per_bit) / (float) transfer->sample_rate`. -/
def receive_frames_resampling_ratio (transfer : dsss_transfer_s) : ℚ :=
  ((transfer.bit_rate : ℚ) * samples_per_bit transfer) / (transfer.sample_rate : ℚ)

/-! ## The option `-e` (src/main.c) -/

/-- The C function `strlen` on the string that starts at index `start` of the
buffer `buf`: the number of bytes before the first NUL. -/
def strlen_at (buf : List Nat) (start : Nat) : Nat :=
  ((buf.drop start).takeWhile (fun b => b ≠ 0)).length

/-- The C string that starts at index `start` of the buffer `buf`: what
`strcpy(_, buf + start)` copies, without the NUL. -/
def string_at (buf : List Nat) (start : Nat) : CString :=
  (buf.drop start).takeWhile (fun b => b ≠ 0)

/-- The call `strchr(buf, c)` on the string at the start of `buf`: the index of
the first `c` before the first NUL, or `none` for `NULL`. -/
def strchr (buf : List Nat) (c : Nat) : Option Nat :=
  let s := string_at buf 0
  if s.indexOf c < s.length then some (s.indexOf c) else none

/-- The string literal `"unknown"`. -/
def str_unknown : CString := [117, 110, 107, 110, 111, 119, 110]

/-- The function `get_fec_schemes(str, inner_fec, outer_fec)`; the result is the
pair of strings written to `inner_fec` and `outer_fec`. The local array `spec`
holds the bytes of `str` and its terminating NUL. -/
def get_fec_schemes (str : CString) : CString × CString :=
  let spec := str ++ [0]
  let separation := strchr spec 44
  let spec := match separation with
    | some i => spec.set i 0
    | none => spec
  let inner_fec := if strlen_at spec 0 < 32 then string_at spec 0 else str_unknown
  let outer_fec := match separation with
    | some i => if strlen_at spec (i + 1) < 32 then string_at spec (i + 1) else str_unknown
    | none => str_none
  (inner_fec, outer_fec)

/-- The rule of the specification for one part of the option: a part of 32
characters or more is replaced by `"unknown"`. -/
def fec_part (part : CString) : CString :=
  if part.length < 32 then part else str_unknown

/-- The result described for the option `-e`: the part before the first comma
(the whole string without a comma), and the part after the first comma, or
`"none"` without a comma. -/
def fec_option (s : CString) : CString × CString :=
  (fec_part (s.takeWhile (fun b => b ≠ 44)),
    if 44 ∈ s then fec_part ((s.dropWhile (fun b => b ≠ 44)).drop 1) else str_none)

/-! ## Amplitude of a block -/

/-- The peak magnitude of a block: the maximum of `cabsf` over its samples (0 for
an empty block). -/
def peak {ρ : Type} [LinearOrderedField ρ] (cabsf : Cplx ρ → ρ) (block : List (Cplx ρ)) : ρ :=
  block.foldl (fun m x => max m (cabsf x)) 0

/-- The number of samples of a block that the inner loop of `send_frames`
forwards: `n = frame_samples_size`, reduced by the padding loop when the frame
is complete. -/
def forwarded_count {ρ : Type} [LinearOrderedField ρ] (frame_samples_size : Nat)
    (frame_complete : Int) (frame_samples : List (Cplx ρ)) : Nat :=
  if frame_complete ≠ 0 then trim_padding frame_samples frame_samples_size
  else frame_samples_size

/-- The samples that the inner loop of `send_frames` gives to
`msresamp_crcf_execute`: the first `n` samples of the block after
`liquid_vectorcf_mulscalar` with the scalar `0.75 / maximum_amplitude`. -/
def resampler_input {ρ : Type} [LinearOrderedField ρ] (cabsf : Cplx ρ → ρ)
    (frame_samples_size : Nat) (frame_complete : Int) (frame_samples : List (Cplx ρ)) :
    List (Cplx ρ) :=
  let n := forwarded_count frame_samples_size frame_complete frame_samples
  let maximum_amplitude := maximum_amplitude cabsf frame_samples n
  (mulscalar frame_samples n (3 / 4 / maximum_amplitude)).take n

/-! ## Reception loop -/

/-- The arguments with which the synchronizer calls `frame_received` for one
frame. -/
structure FrameReport where
  header : List Nat
  header_valid : Int
  payload : List Nat
  payload_size : Nat
  payload_valid : Int
  deriving DecidableEq, Repr

/-- The liquid-dsp objects used by `receive_frames`, as state transformers: the
resampler, the oscillator (`nco_crcf_mix_block_down`) and the frame
synchronizer, whose `dsssframesync_execute` reports the frames it completes
while it consumes the samples. -/
structure RxLib (ρ R O S : Type) where
  resampler : R
  oscillator : O
  synchronizer : S
  msresamp_crcf_execute : R → List (Cplx ρ) → List (Cplx ρ) × R
  nco_crcf_mix_block_down : O → List (Cplx ρ) → List (Cplx ρ) × O
  dsssframesync_execute : S → List (Cplx ρ) → List FrameReport × S

/-- What the loop of `receive_frames` does, in order: the read from the radio,
the timeout message, the dump of the samples read, the calls of the resampler
and of the synchronizer with the samples they are given, and what
`frame_received` does for each frame reported. -/
inductive RxLoopEvent (ρ : Type)
  | receive_from_radio (samples_size : Nat)
  | timeout_message (timeout : Nat)
  | dump_samples (samples : List (Cplx ρ))
  | msresamp_crcf_execute (samples : List (Cplx ρ))
  | dsssframesync_execute (frame_samples : List (Cplx ρ))
  | callback (e : RxEvent)

/-- The state of `receive_frames` while its loop runs. -/
structure RxState (ρ R O S : Type) where
  transfer : dsss_transfer_s
  globals : Globals
  resampler : R
  oscillator : O
  synchronizer : S
  events : List (RxLoopEvent ρ)

/-- One turn of the loop of `receive_frames`, as seen from outside: either the
loop condition finds a stop flag set, or `receive_from_radio` returns the
samples `samples`; `now` is then the clock read by the timeout test, and
`callback_times` lists the clock read by each call of `frame_received` made
during this turn (`now` when the list is too short). -/
inductive RxStep (ρ : Type)
  | stop
  | read (samples : List (Cplx ρ)) (now : Int) (callback_times : List Int)

/-- The way the loop of `receive_frames` is left: a stop flag, the `break` after
a read of 0 samples, or the `break` of the timeout. -/
inductive RxExit
  | stop_flag
  | starved
  | timed_out
  deriving DecidableEq, Repr

/-- The calls of `frame_received` made by the synchronizer for the frames it
reports, in order; call number `k` reads the clock `callback_times[k]`. -/
def deliver_frames {ρ R O S : Type} (now : Int) (callback_times : List Int) :
    List FrameReport → Nat → RxState ρ R O S → RxState ρ R O S
  | [], _, st => st
  | f :: rest, k, st =>
    let out := frame_received st.globals (callback_times.getD k now) f.header f.header_valid
      f.payload f.payload_size f.payload_valid st.transfer
    deliver_frames now callback_times rest (k + 1)
      { st with
        transfer := out.transfer
        globals := out.globals
        events := st.events ++ out.events.map RxLoopEvent.callback }

/-- The body of the loop of `receive_frames`; the second component is `none`
when the body runs to its end, and the kind of `break` otherwise. The sum
`timeout_start + timeout` is taken in `time_t` without overflow. -/
def receive_iteration {ρ R O S : Type} (lib : RxLib ρ R O S) (samples_size : Nat)
    (samples : List (Cplx ρ)) (now : Int) (callback_times : List Int)
    (st : RxState ρ R O S) : RxState ρ R O S × Option RxExit :=
  let st := { st with events := st.events ++ [RxLoopEvent.receive_from_radio samples_size] }
  let n := samples.length
  if n = 0 ∧ (st.transfer.radio_type = .IO_TYPE ∨ st.transfer.radio_type = .FILENAME) then
    (st, some RxExit.starved)
  else if st.transfer.timeout > 0
      ∧ now > st.transfer.timeout_start + (st.transfer.timeout : Int) then
    let st :=
      if st.globals.verbose ≠ 0 then
        { st with events := st.events ++ [RxLoopEvent.timeout_message st.transfer.timeout] }
      else st
    (st, some RxExit.timed_out)
  else
    let st :=
      if st.transfer.dump.isSome then
        { st with events := st.events ++ [RxLoopEvent.dump_samples samples] }
      else st
    let mixed :=
      if st.transfer.frequency_offset ≠ 0 then lib.nco_crcf_mix_block_down st.oscillator samples
      else (samples, st.oscillator)
    let st := { st with
      oscillator := mixed.2
      events := st.events ++ [RxLoopEvent.msresamp_crcf_execute mixed.1] }
    let out := lib.msresamp_crcf_execute st.resampler mixed.1
    let st := { st with
      resampler := out.2
      events := st.events ++ [RxLoopEvent.dsssframesync_execute out.1] }
    let sync := lib.dsssframesync_execute st.synchronizer out.1
    let st := { st with synchronizer := sync.2 }
    (deliver_frames now callback_times sync.1 0 st, none)

/-- The loop `while((!stop) && (!transfer->stop))` of `receive_frames`, run on
the turns of `steps`; the second component is `none` when the listed turns run
out before the loop is left. -/
def receive_frames_loop {ρ R O S : Type} (lib : RxLib ρ R O S) (samples_size : Nat) :
    List (RxStep ρ) → RxState ρ R O S → RxState ρ R O S × Option RxExit
  | [], st => (st, none)
  | RxStep.stop :: _, st => (st, some RxExit.stop_flag)
  | RxStep.read samples now callback_times :: rest, st =>
    match receive_iteration lib samples_size samples now callback_times st with
    | (st, some e) => (st, some e)
    | (st, none) => receive_frames_loop lib samples_size rest st

/-- The samples given to the resampler and to the synchronizer, in call order. -/
def samples_processed {ρ : Type} : List (RxLoopEvent ρ) → List (List (Cplx ρ))
  | [] => []
  | RxLoopEvent.msresamp_crcf_execute samples :: rest => samples :: samples_processed rest
  | RxLoopEvent.dsssframesync_execute samples :: rest => samples :: samples_processed rest
  | _ :: rest => samples_processed rest

/-- A turn of the `send_frames` loop after which the loop goes on: the data
callback was called and returned a value that is not negative. -/
def turn_continues {ρ : Type} : TxStep ρ → Bool
  | TxStep.stop => false
  | TxStep.data r _ _ _ => decide (0 ≤ r)

/-- Stand-ins for the liquid-dsp objects of the transmitter, used to evaluate
`send_frames` on examples: the resampler and the oscillator hand the samples
through and count their calls; the magnitude is taken on the real axis. -/
def sample_tx_lib : TxLib ℚ Nat Nat where
  resampler := 0
  oscillator := 0
  msresamp_crcf_execute := fun r samples => (samples, r + 1)
  nco_crcf_mix_block_up := fun o samples => (samples, o + 1)
  cabsf := fun x => |x.re|

/-- Stand-ins for the liquid-dsp objects of the receiver, used to evaluate the
reception loop on examples: the samples are handed through and the synchronizer
reports no frame. -/
def sample_rx_lib : RxLib ℚ Nat Nat Nat where
  resampler := 0
  oscillator := 0
  synchronizer := 0
  msresamp_crcf_execute := fun r samples => (samples, r + 1)
  nco_crcf_mix_block_down := fun o samples => (samples, o + 1)
  dsssframesync_execute := fun s _ => ([], s + 1)

/-- The state in which `receive_frames` enters its loop for the session
`transfer`, with the stand-in objects. -/
def sample_rx_state (transfer : dsss_transfer_s) : RxState ℚ Nat Nat Nat where
  transfer := transfer
  globals := ⟨0, 0⟩
  resampler := 0
  oscillator := 0
  synchronizer := 0
  events := []

/-! ## Starting and stopping sessions -/

/-- The memory of the process as far as sessions are concerned: the file-scope
variables and the session records, by address. -/
structure World where
  globals : Globals
  sessions : Nat → dsss_transfer_s

/-- The function `dsss_transfer_stop(transfer)`, on the session at address
`transfer`. -/
def dsss_transfer_stop (w : World) (transfer : Nat) : World :=
  { w with
    sessions := fun a =>
      if a = transfer then { w.sessions transfer with stop := 1 } else w.sessions a }

/-- The function `dsss_transfer_stop_all()`. -/
def dsss_transfer_stop_all (w : World) : World :=
  { w with globals := { w.globals with stop := 1 } }

/-- What `dsss_transfer_start` does to the outside before its loop: the two
information messages and the activation of the SoapySDR stream. -/
inductive StartEvent
  | info_io
  | info_filename
  | activate_stream
  deriving DecidableEq, Repr

/-- The loop that `dsss_transfer_start` enters. -/
inductive StartLoop
  | send_frames
  | receive_frames
  deriving DecidableEq, Repr

/-- The function `dsss_transfer_start(transfer)` up to the point where it calls
`send_frames` or `receive_frames`: the memory at that point, what was done to
the outside, and the loop entered; `now` is the value of `time(NULL)`. The
`default` branch of the `switch` cannot be taken by a value of `radio_type_t`. -/
def dsss_transfer_start (w : World) (transfer : Nat) (now : Int) :
    World × List StartEvent × StartLoop :=
  let w := { w with globals := { w.globals with stop := 0 } }
  let w := { w with
    sessions := fun a =>
      if a = transfer then { w.sessions transfer with stop := 0 } else w.sessions a }
  let events :=
    match (w.sessions transfer).radio_type with
    | .IO_TYPE => if w.globals.verbose ≠ 0 then [StartEvent.info_io] else []
    | .FILENAME => if w.globals.verbose ≠ 0 then [StartEvent.info_filename] else []
    | .SOAPYSDR => [StartEvent.activate_stream]
  let w := { w with
    sessions := fun a =>
      if a = transfer then { w.sessions transfer with timeout_start := now }
      else w.sessions a }
  (w, events, if (w.sessions transfer).emit ≠ 0 then StartLoop.send_frames
    else StartLoop.receive_frames)

/-- The session that `dsss_transfer_create_callback` returns in the world
`sample_env` for the IO radio, 2000000 S/s, 100 b/s, 434 MHz, no clock
correction, spreading factor 64, FEC `h128` and `none`, no dump, no timeout, no
audio, and the given direction and id; used to evaluate examples. -/
def sample_session (emit : Nat) (id : CString) : dsss_transfer_s :=
  { bzero_transfer with
    emit := emit
    sample_rate := 2000000
    bit_rate := 100
    frequency := 434000000
    spreading_factor := 64
    crc := LIQUID_CRC_32
    inner_fec := 6
    outer_fec := 1
    id := strcpy_id id }

/-- The session that `dsss_transfer_create_callback` returns in the world
`sample_env` for the IO radio in receive mode with audio set, 48000 S/s,
100 b/s, a frequency of 1500 Hz, no clock correction, spreading factor 64, FEC
`h128` and `none`, the id `TEST`, no dump and no timeout; used to evaluate
examples. -/
def sample_audio_session : dsss_transfer_s :=
  { bzero_transfer with
    sample_rate := 24000
    bit_rate := 100
    frequency := 0
    frequency_offset := -10500
    spreading_factor := 64
    crc := LIQUID_CRC_32
    inner_fec := 6
    outer_fec := 1
    id := [84, 69, 83, 84, 0]
    audio_converter := some 1 }

/-! ## Stand-ins and reports used by the properties of the two loops -/

/-- Stand-ins for the liquid-dsp objects of the transmitter over any field, with
the magnitude function `cabsf` given: the resampler and the oscillator hand the
samples through and count their calls, so that `send_to_radio` receives the
samples that were given to the resampler. -/
def transparent_tx_lib {ρ : Type} (cabsf : Cplx ρ → ρ) : TxLib ρ Nat Nat where
  resampler := 0
  oscillator := 0
  msresamp_crcf_execute := fun r samples => (samples, r + 1)
  nco_crcf_mix_block_up := fun o samples => (samples, o + 1)
  cabsf := cabsf

theorem for_loop_succ {β : Type} (n : Nat) (body : Nat → β → β) (init : β) :
    for_loop (n + 1) body init = body n (for_loop n body init) := by
  simp [for_loop, List.range_succ, List.foldl_append]

section
variable {σ α : Type} [Zero α] [One α] [Add α] [Sub α] [Mul α] [Neg α]

theorem dsssframesync_chip_body_eq (lf : Msequence σ) (s : α) :
    dsssframesync_chip_body lf s = dsssframegen_chip_body lf s := rfl

theorem dsssframegen_chip_body_eq (lf : Msequence σ) (s : α) (i : Nat) (buf : List (Cplx α))
    (m : σ) (hi : i < buf.length) :
    dsssframegen_chip_body lf s i (buf, m)
      = (buf.set i (pn_chip lf s m), (lf.advance (lf.advance m).2).2) := by
  simp [dsssframegen_chip_body, pn_chip, List.getD_eq_getElem?_getD, hi]

theorem take_succ_set {γ : Type} (l : List γ) (k : Nat) (y : γ) (hk : k < l.length) :
    (l.set k y).take (k + 1) = l.take k ++ [y] := by
  induction l generalizing k with
  | nil => simp at hk
  | cons a t ih =>
    cases k with
    | zero => simp
    | succ k => simp at hk; simp [ih k hk]

theorem chip_loop_agree (lf : Msequence σ) (s : α) (n : Nat) (b1 b2 : List (Cplx α)) (m : σ)
    (h1 : b1.length = n) (h2 : b2.length = n) (k : Nat) (hk : k ≤ n) :
    (for_loop k (dsssframegen_chip_body lf s) (b1, m)).2
        = (for_loop k (dsssframegen_chip_body lf s) (b2, m)).2
      ∧ (for_loop k (dsssframegen_chip_body lf s) (b1, m)).1.take k
        = (for_loop k (dsssframegen_chip_body lf s) (b2, m)).1.take k
      ∧ (for_loop k (dsssframegen_chip_body lf s) (b1, m)).1.length = n
      ∧ (for_loop k (dsssframegen_chip_body lf s) (b2, m)).1.length = n := by
  induction k with
  | zero => simp [for_loop, h1, h2]
  | succ k ih =>
    obtain ⟨e2, e1, l1, l2⟩ := ih (by omega)
    rw [for_loop_succ, for_loop_succ]
    generalize for_loop k (dsssframegen_chip_body lf s) (b1, m) = st1 at *
    generalize for_loop k (dsssframegen_chip_body lf s) (b2, m) = st2 at *
    obtain ⟨c1, m1⟩ := st1
    obtain ⟨c2, m2⟩ := st2
    simp only at e2 e1 l1 l2
    subst e2
    rw [dsssframegen_chip_body_eq _ _ _ _ _ (by omega), dsssframegen_chip_body_eq _ _ _ _ _ (by omega)]
    refine ⟨rfl, ?_, by simp [l1], by simp [l2]⟩
    simp only
    rw [take_succ_set _ _ _ (by omega), take_succ_set _ _ _ (by omega), e1]

theorem chip_loop_indep (lf : Msequence σ) (s : α) (n : Nat) (b1 b2 : List (Cplx α)) (m : σ)
    (h1 : b1.length = n) (h2 : b2.length = n) :
    (for_loop n (dsssframegen_chip_body lf s) (b1, m)).1
      = (for_loop n (dsssframegen_chip_body lf s) (b2, m)).1 := by
  obtain ⟨_, e, l1, l2⟩ := chip_loop_agree lf s n b1 b2 m h1 h2 n (le_refl n)
  rw [List.take_of_length_le (by omega), List.take_of_length_le (by omega)] at e
  exact e
end

theorem malloc_buf_length {γ : Type} [Zero γ] (g : List γ) (n : Nat) :
    (malloc_buf g n).length = n := by simp [malloc_buf]

theorem calloc_buf_length {γ : Type} [Zero γ] (n : Nat) :
    (calloc_buf n : List γ).length = n := by simp [calloc_buf]

/-- C1: for every spreading factor `N` in `[2, 64]` and every LFSR primitive,
both constructors succeed and hold the same 64-chip preamble sequence and the
same `N`-chip spreading sequence, chip for chip (whatever the memory handed out
by `malloc` contained). -/
theorem pn_sequences_agree {σ α : Type} [Zero α] [One α] [Add α] [Sub α] [Mul α] [Neg α]
    (lf : Msequence σ) (sqrt1_2 : α) (garbage : List (Cplx α)) (N : Nat)
    (hN : 2 ≤ N ∧ N ≤ 64) :
    ∃ g s, dsssframegen_create_set lf sqrt1_2 garbage N = some g
      ∧ dsssframesync_create_set lf sqrt1_2 N = some s
      ∧ g.preamble_pn = s.preamble_pn ∧ g.preamble_pn.length = 64
      ∧ g.header_synth = s.header_synth ∧ g.payload_synth = s.payload_synth
      ∧ g.header_synth.length = N ∧ g.payload_synth.length = N := by
  have hn : ¬ (N < 2 ∨ N > 64) := by omega
  refine ⟨_, _, by rw [dsssframegen_create_set, if_neg hn],
    by rw [dsssframesync_create_set, if_neg hn], ?_, ?_, ?_, ?_, ?_, ?_⟩
  all_goals simp only [dsssframesync_chip_body_eq]
  · exact chip_loop_indep lf sqrt1_2 64 _ _ _ (malloc_buf_length _ _) (calloc_buf_length _)
  · exact (chip_loop_agree lf sqrt1_2 64 _ _ _ (malloc_buf_length garbage _) (malloc_buf_length garbage _) 64 (le_refl _)).2.2.1
  · exact chip_loop_indep lf sqrt1_2 N _ _ _ (malloc_buf_length _ _) (calloc_buf_length _)
  · exact chip_loop_indep lf sqrt1_2 N _ _ _ (malloc_buf_length _ _) (calloc_buf_length _)
  · exact (chip_loop_agree lf sqrt1_2 N _ _ _ (malloc_buf_length garbage _) (malloc_buf_length garbage _) N (le_refl _)).2.2.1
  · exact (chip_loop_agree lf sqrt1_2 N _ _ _ (malloc_buf_length garbage _) (malloc_buf_length garbage _) N (le_refl _)).2.2.1

/-- Witness of C1 with the concrete LFSR, amplitude 1 over the integers and
spreading factor 4. -/
theorem pn_sequences_agree_witness :
    (2 ≤ 4 ∧ 4 ≤ 64) ∧ ∃ g s,
      dsssframegen_create_set lfsr (1 : Int) [⟨5, 5⟩, ⟨7, 7⟩] 4 = some g
        ∧ dsssframesync_create_set lfsr (1 : Int) 4 = some s
        ∧ g.preamble_pn = s.preamble_pn ∧ g.preamble_pn.length = 64
        ∧ g.header_synth = s.header_synth ∧ g.payload_synth = s.payload_synth
        ∧ g.header_synth.length = 4 ∧ g.payload_synth.length = 4 :=
  ⟨by decide, pn_sequences_agree lfsr (1 : Int) [⟨5, 5⟩, ⟨7, 7⟩] 4 (by decide)⟩

/-! ## Lemmas on bytes -/

theorem and_255 (x : Nat) : x &&& 255 = x % 256 :=
  Nat.and_pow_two_sub_one_eq_mod x 8

theorem be_pack (a b c d : Nat) (hb : b < 256) (hc : c < 256) (hd : d < 256) :
    ((a <<< 24) ||| (b <<< 16) ||| (c <<< 8) ||| d)
      = a * 2 ^ 24 + b * 2 ^ 16 + c * 2 ^ 8 + d := by
  simp only [Nat.shiftLeft_eq]
  have h1 : a * 2 ^ 24 ||| b * 2 ^ 16 = 2 ^ 16 * (a * 2 ^ 8 + b) := by
    rw [Nat.mul_comm a, ← Nat.mul_add_lt_is_or (by omega : b * 2 ^ 16 < 2 ^ 24)]
    ring
  have h2 : 2 ^ 16 * (a * 2 ^ 8 + b) ||| c * 2 ^ 8
      = 2 ^ 8 * (a * 2 ^ 16 + b * 2 ^ 8 + c) := by
    rw [← Nat.mul_add_lt_is_or (by omega : c * 2 ^ 8 < 2 ^ 16)]
    ring
  rw [h1, h2, ← Nat.mul_add_lt_is_or (by omega : d < 2 ^ 8)]
  ring

theorem set_counter_bytes (h : List Nat) (c : Nat) (hl : h.length = 8) :
    set_counter h c
      = h.take 4 ++ [(c >>> 24) % 256, (c >>> 16) % 256, (c >>> 8) % 256, c % 256] := by
  rcases h with _ | ⟨a0, _ | ⟨a1, _ | ⟨a2, _ | ⟨a3, _ | ⟨a4, _ | ⟨a5, _ | ⟨a6, _ | ⟨a7, _ | ⟨a8, t⟩⟩⟩⟩⟩⟩⟩⟩⟩ <;>
    simp at hl
  simp [set_counter, and_255]

/-- C2: for every 8-byte header `h` and every counter `c` below `2 ^ 32`,
`get_counter (set_counter h c) = c`. -/
theorem get_counter_set_counter (h : List Nat) (c : Nat) (hl : h.length = 8)
    (hc : c < 2 ^ 32) : get_counter (set_counter h c) = c := by
  rw [set_counter_bytes h c hl]
  have h4 : (h.take 4).length = 4 := by simp [hl]
  simp only [get_counter, List.getD_eq_getElem?_getD]
  rw [List.getElem?_append_right (by omega), List.getElem?_append_right (by omega),
    List.getElem?_append_right (by omega), List.getElem?_append_right (by omega)]
  simp only [h4, Nat.sub_self, (by norm_num : 5 - 4 = 1), (by norm_num : 6 - 4 = 2),
    (by norm_num : 7 - 4 = 3), List.getElem?_cons_zero, List.getElem?_cons_succ,
    Option.getD_some]
  rw [be_pack _ _ _ _ (Nat.mod_lt _ (by norm_num)) (Nat.mod_lt _ (by norm_num))
    (Nat.mod_lt _ (by norm_num))]
  simp only [Nat.shiftRight_eq_div_pow]
  omega

/-- Witness of C2 on the header of session `TEST` and the counter `0xdeadbeef`. -/
theorem get_counter_set_counter_witness :
    get_counter (set_counter [84, 69, 83, 84, 0, 0, 0, 0] 0xdeadbeef) = 0xdeadbeef :=
  get_counter_set_counter [84, 69, 83, 84, 0, 0, 0, 0] 0xdeadbeef (by decide) (by decide)

/-- C3: for every 8-byte header `h` and every 32-bit counter `c`, the header
`set_counter h c` is 8 bytes long, keeps bytes 0..3 of `h`, and its bytes 4..7
are bytes (below 256) with `c = b4 * 2 ^ 24 + b5 * 2 ^ 16 + b6 * 2 ^ 8 + b7`, that
is the big-endian encoding of `c`, byte 4 being the most significant. -/
theorem set_counter_big_endian (h : List Nat) (c : Nat) (hl : h.length = 8)
    (hc : c < 2 ^ 32) :
    (set_counter h c).length = 8
      ∧ (set_counter h c).take 4 = h.take 4
      ∧ (set_counter h c).drop 4 = big_endian c
      ∧ (set_counter h c).getD 4 0 < 256 ∧ (set_counter h c).getD 5 0 < 256
      ∧ (set_counter h c).getD 6 0 < 256 ∧ (set_counter h c).getD 7 0 < 256
      ∧ c = (set_counter h c).getD 4 0 * 2 ^ 24 + (set_counter h c).getD 5 0 * 2 ^ 16
          + (set_counter h c).getD 6 0 * 2 ^ 8 + (set_counter h c).getD 7 0 := by
  rw [set_counter_bytes h c hl]
  have h4 : (h.take 4).length = 4 := by simp [hl]
  have g : ∀ (i : Nat) (l : List Nat), 4 ≤ i →
      (h.take 4 ++ l).getD i 0 = l.getD (i - 4) 0 := by
    intro i l hi
    simp only [List.getD_eq_getElem?_getD]
    rw [List.getElem?_append_right (by omega), h4]
  refine ⟨by simp [h4], ?_, ?_, ?_, ?_, ?_, ?_, ?_⟩
  · rw [List.take_append_of_le_length (by omega), List.take_take]
    simp
  · rw [List.drop_append_of_le_length (by omega), List.drop_of_length_le (by omega)]
    simp [big_endian, Nat.shiftRight_eq_div_pow]
  all_goals rw [g _ _ (by norm_num)]
  all_goals try rw [g _ _ (by norm_num), g _ _ (by norm_num), g _ _ (by norm_num)]
  all_goals simp only [(by norm_num : 4 - 4 = 0), (by norm_num : 5 - 4 = 1),
    (by norm_num : 6 - 4 = 2), (by norm_num : 7 - 4 = 3), List.getD_cons_zero,
    List.getD_cons_succ, Nat.shiftRight_eq_div_pow]
  all_goals omega

/-- Witness of C3 on the header of session `TEST` and the counter `0x01020304`. -/
theorem set_counter_big_endian_witness :
    (set_counter [84, 69, 83, 84, 9, 9, 9, 9] 0x01020304).length = 8
      ∧ (set_counter [84, 69, 83, 84, 9, 9, 9, 9] 0x01020304).take 4
          = [84, 69, 83, 84]
      ∧ (set_counter [84, 69, 83, 84, 9, 9, 9, 9] 0x01020304).drop 4 = [1, 2, 3, 4] := by
  have w := set_counter_big_endian [84, 69, 83, 84, 9, 9, 9, 9] 0x01020304
    (by decide) (by decide)
  exact ⟨w.1, w.2.1, w.2.2.1.trans (by decide)⟩

/-- C6: for every spreading factor `n`, each of the two constructors returns
`NULL` exactly when `n < 2` or `n > 64`; hence both accept the same values. -/
theorem create_set_null_iff {σ α : Type} [Zero α] [One α] [Add α] [Sub α] [Mul α] [Neg α]
    (lf : Msequence σ) (sqrt1_2 : α) (garbage : List (Cplx α)) (n : Nat) :
    (dsssframegen_create_set lf sqrt1_2 garbage n = none ↔ (n < 2 ∨ n > 64))
      ∧ (dsssframesync_create_set lf sqrt1_2 n = none ↔ (n < 2 ∨ n > 64))
      ∧ ((dsssframegen_create_set lf sqrt1_2 garbage n).isSome
          = (dsssframesync_create_set lf sqrt1_2 n).isSome) := by
  by_cases h : n < 2 ∨ n > 64
  · simp [dsssframegen_create_set, dsssframesync_create_set, h]
  · simp [dsssframegen_create_set, dsssframesync_create_set, h]

/-- C10: whatever the bit rate and whatever the rounding of the product
`byte_rate * 0.1`, the payload size computed by `send_frames` lies in
`[16, 8000]`. -/
theorem payload_size_bounds (tenth : Nat → ℚ) (bit_rate : Nat) :
    16 ≤ payload_size tenth bit_rate ∧ payload_size tenth bit_rate ≤ 8000 := by
  simp only [payload_size, to_uint]
  generalize tenth (bit_rate / 8) = x
  have h1 : (16 : ℚ) ≤ MIN (MAX x 16) 8000 := by
    unfold MIN MAX
    split_ifs <;> linarith
  have h2 : MIN (MAX x 16) 8000 ≤ (8000 : ℚ) := by
    unfold MIN MAX
    split_ifs <;> linarith
  generalize MIN (MAX x 16) 8000 = y at h1 h2
  have f1 : (16 : Int) ≤ Int.floor y := Int.le_floor.mpr (by exact_mod_cast h1)
  have f2 : Int.floor y ≤ (8000 : Int) := by
    have := Int.floor_le y
    have h3 : ((Int.floor y : Int) : ℚ) ≤ ((8000 : Int) : ℚ) := by
      push_cast; linarith
    exact_mod_cast h3
  omega

theorem first4_id_local (header : List Nat) :
    first4 (first4 header ++ [0]) = first4 header := by
  simp [first4, List.range_succ]

/-- C9: for every received frame, `frame_received` calls the data callback
exactly when `header_valid` and `payload_valid` are both non-zero and the first
four header bytes equal the first four bytes of the session id; it then makes
one call, of the session's callback with the session's context and the received
payload and size unchanged, and otherwise none. In every case it returns 0 and
leaves the file-scope variables and the session's stop flag as they were. -/
theorem frame_received_delivery (g : Globals) (now : Int) (header : List Nat)
    (header_valid : Int) (payload : List Nat) (payload_size : Nat) (payload_valid : Int)
    (transfer : dsss_transfer_s) :
    (callback_calls (frame_received g now header header_valid payload payload_size
            payload_valid transfer).events
          = if header_valid ≠ 0 ∧ payload_valid ≠ 0 ∧ first4 header = first4 transfer.id
            then [(transfer.data_callback, transfer.callback_context, payload, payload_size)]
            else [])
      ∧ (frame_received g now header header_valid payload payload_size payload_valid
          transfer).ret = 0
      ∧ (frame_received g now header header_valid payload payload_size payload_valid
          transfer).globals = g
      ∧ (frame_received g now header header_valid payload payload_size payload_valid
          transfer).transfer.stop = transfer.stop := by
  refine ⟨?_, rfl, rfl, rfl⟩
  · by_cases hv : header_valid = 0
    · by_cases vb : g.verbose = 0 <;> by_cases pv : payload_valid = 0 <;>
        simp [frame_received, hv, pv, vb, callback_calls]
    · by_cases pv : payload_valid = 0
      · by_cases vb : g.verbose = 0 <;> simp [frame_received, hv, pv, vb, callback_calls]
      · by_cases hid : first4 header = first4 transfer.id
        · simp [frame_received, hv, pv, first4_id_local, hid, callback_calls]
        · by_cases vb : g.verbose = 0 <;>
            simp [frame_received, hv, pv, first4_id_local, hid, vb, callback_calls]


/-- C8: when `sample_rate` is 0 or `bit_rate` is 0, session creation returns
`NULL`, whatever the other parameters and whatever the outside world answers. -/
theorem create_null_of_zero_rate (env : CreateEnv) (radio_driver : CString) (emit : Nat)
    (data_callback callback_context : Nat) (sample_rate bit_rate frequency : Nat)
    (frequency_offset : Int) (gain : CString) (ppm : Nat → Nat) (spreading_factor : Nat)
    (inner_fec outer_fec id : CString) (dump : Option CString) (timeout audio : Nat)
    (h : sample_rate = 0 ∨ bit_rate = 0) :
    dsss_transfer_create_callback env radio_driver emit data_callback callback_context
      sample_rate bit_rate frequency frequency_offset gain ppm spreading_factor inner_fec
      outer_fec id dump timeout audio = CreateResult.null := by
  unfold dsss_transfer_create_callback
  rcases h with h | h
  · simp [h]
  · simp only [h]
    split_ifs <;> try rfl
    all_goals split <;> simp

/-- Witness of C8: a bit rate of 0 with otherwise usual parameters. -/
theorem create_null_of_zero_rate_witness :
    (2000000 = 0 ∨ 0 = 0)
      ∧ dsss_transfer_create_callback sample_env str_io 1 0 0 2000000 0 434000000 0 [48]
          id 64 str_h128 str_none [84, 69, 83, 84] none 0 0 = CreateResult.null :=
  ⟨Or.inr rfl, create_null_of_zero_rate sample_env str_io 1 0 0 2000000 0 434000000 0 [48]
    id 64 str_h128 str_none [84, 69, 83, 84] none 0 0 (Or.inr rfl)⟩

theorem strcpy_id_eq (id : CString) (h : id.length ≤ 4) :
    strcpy_id id = id ++ List.replicate (5 - id.length) 0 := by
  rcases id with _ | ⟨a, _ | ⟨b, _ | ⟨c, _ | ⟨d, _ | ⟨e, t⟩⟩⟩⟩⟩
  · rfl
  · rfl
  · rfl
  · rfl
  · rfl
  · simp at h

/-- C7: with the IO radio, no audio, no dump, and every other parameter valid
(memory available, non-zero sample rate, frequency and bit rate, spreading
factor at least 2, known FEC names), `dsss_transfer_create_callback` returns
`NULL` exactly when the id is longer than 4 bytes; an id of at most 4 bytes gives
a session whose `id` array holds the id followed by zero bytes. -/
theorem create_null_iff_long_id (env : CreateEnv) (radio_driver : CString) (emit : Nat)
    (data_callback callback_context : Nat) (sample_rate bit_rate frequency : Nat)
    (frequency_offset : Int) (gain : CString) (ppm : Nat → Nat) (spreading_factor : Nat)
    (inner_fec outer_fec id : CString) (timeout : Nat)
    (hmem : env.malloc_ok = true) (hradio : strcasecmp_eq radio_driver str_io = true)
    (hsr : sample_rate ≠ 0) (hfr : frequency ≠ 0) (hbr : bit_rate ≠ 0)
    (hsf : 2 ≤ spreading_factor)
    (hin : env.liquid_getopt_str2fec inner_fec ≠ LIQUID_FEC_UNKNOWN)
    (hout : env.liquid_getopt_str2fec outer_fec ≠ LIQUID_FEC_UNKNOWN) :
    (dsss_transfer_create_callback env radio_driver emit data_callback callback_context
        sample_rate bit_rate frequency frequency_offset gain ppm spreading_factor inner_fec
        outer_fec id none timeout 0 = CreateResult.null ↔ 4 < id.length)
      ∧ (id.length ≤ 4 → ∃ transfer,
          dsss_transfer_create_callback env radio_driver emit data_callback callback_context
            sample_rate bit_rate frequency frequency_offset gain ppm spreading_factor
            inner_fec outer_fec id none timeout 0 = CreateResult.session transfer
          ∧ transfer.id = id ++ List.replicate (5 - id.length) 0) := by
  by_cases hid : id.length ≤ 4
  · have e : ∃ transfer,
        dsss_transfer_create_callback env radio_driver emit data_callback callback_context
          sample_rate bit_rate frequency frequency_offset gain ppm spreading_factor
          inner_fec outer_fec id none timeout 0 = CreateResult.session transfer
        ∧ transfer.id = id ++ List.replicate (5 - id.length) 0 := by
      generalize hres : dsss_transfer_create_callback env radio_driver emit data_callback
        callback_context sample_rate bit_rate frequency frequency_offset gain ppm
        spreading_factor inner_fec outer_fec id none timeout 0 = res
      simp [dsss_transfer_create_callback, audio_setup, open_radio, hmem, hradio, hsr, hfr,
        hbr, hsf, hin, hout, hid] at hres
      subst hres
      exact ⟨_, rfl, by simp [strcpy_id_eq id hid]⟩
    obtain ⟨t, ht, hti⟩ := e
    refine ⟨?_, fun _ => ⟨t, ht, hti⟩⟩
    rw [ht]
    constructor
    · intro h; cases h
    · intro h; omega
  · refine ⟨?_, fun h => absurd h hid⟩
    have : dsss_transfer_create_callback env radio_driver emit data_callback callback_context
        sample_rate bit_rate frequency frequency_offset gain ppm spreading_factor inner_fec
        outer_fec id none timeout 0 = CreateResult.null := by
      simp [dsss_transfer_create_callback, audio_setup, hmem, hsr, hfr,
        hbr, hsf, hin, hout, hid]
    rw [this]
    constructor
    · intro _; omega
    · intro _; rfl

/-- Witness of C7: the IO radio, 2000000 S/s, 100 b/s, 434 MHz, spreading
factor 64, FEC `h128` and `none`, id `TEST`. -/
theorem create_null_iff_long_id_witness :
    (dsss_transfer_create_callback sample_env str_io 1 0 0 2000000 100 434000000 0 [48]
        id 64 str_h128 str_none [84, 69, 83, 84] none 0 0 = CreateResult.null
        ↔ 4 < [84, 69, 83, 84].length)
      ∧ ([84, 69, 83, 84].length ≤ 4 → ∃ transfer,
          dsss_transfer_create_callback sample_env str_io 1 0 0 2000000 100 434000000 0
            [48] id 64 str_h128 str_none [84, 69, 83, 84] none 0 0
            = CreateResult.session transfer
          ∧ transfer.id = [84, 69, 83, 84] ++ List.replicate (5 - [84, 69, 83, 84].length) 0) :=
  create_null_iff_long_id sample_env str_io 1 0 0 2000000 100 434000000 0 [48] id 64
    str_h128 str_none [84, 69, 83, 84] 0 (by decide) (by decide) (by decide) (by decide)
    (by decide) (by decide) (by decide) (by decide)

/-! ## Lemmas on the transmit loop -/


theorem assembled_headers_append {ρ : Type} (a b : List (TxEvent ρ)) :
    assembled_headers (a ++ b) = assembled_headers a ++ assembled_headers b := by
  induction a with
  | nil => rfl
  | cons e t ih => cases e <;> simp [assembled_headers, ih]

section tx
variable {ρ R O : Type}

theorem TxKeeps.refl (st : TxState ρ R O) : TxKeeps st st := ⟨rfl, rfl, rfl⟩

theorem TxKeeps.trans {a b c : TxState ρ R O} (h1 : TxKeeps a b) (h2 : TxKeeps b c) :
    TxKeeps a c :=
  ⟨h2.1.trans h1.1, h2.2.1.trans h1.2.1, h2.2.2.trans h1.2.2⟩

variable [LinearOrderedField ρ]

theorem send_block_keeps (lib : TxLib ρ R O) (transfer : dsss_transfer_s) (fss : Nat)
    (fc : Int) (b : List (Cplx ρ)) (st : TxState ρ R O) :
    TxKeeps st (send_block lib transfer fss fc b st) := by
  refine ⟨rfl, rfl, ?_⟩
  simp [send_block, assembled_headers_append, assembled_headers]

theorem send_blocks_keeps (lib : TxLib ρ R O) (transfer : dsss_transfer_s) (fss : Nat)
    (blocks : List (List (Cplx ρ))) (st : TxState ρ R O) :
    TxKeeps st (blocks.foldl (fun st b => send_block lib transfer fss 0 b st) st) := by
  induction blocks generalizing st with
  | nil => exact TxKeeps.refl st
  | cons b t ih => exact (send_block_keeps lib transfer fss 0 b st).trans (ih _)

theorem send_dummy_samples_keeps (lib : TxLib ρ R O) (transfer : dsss_transfer_s)
    (delay : Nat) (last : Int) (st : TxState ρ R O) :
    TxKeeps st (send_dummy_samples lib transfer delay last st) := by
  unfold send_dummy_samples
  generalize hd : delay = d
  have key : ∀ k, TxKeeps st (for_loop k
      (fun i (st : TxState ρ R O) =>
        let zero_sample : Cplx ρ := 0
        let out := lib.msresamp_crcf_execute st.resampler [zero_sample]
        let mixed :=
          if transfer.frequency_offset ≠ 0 then lib.nco_crcf_mix_block_up st.oscillator out.1
          else (out.1, st.oscillator)
        { st with
          resampler := out.2
          oscillator := mixed.2
          events := st.events ++
            [TxEvent.send_to_radio mixed.1 (if i + 1 < d then 0 else last)] })
      st) := by
    intro k
    induction k with
    | zero => exact TxKeeps.refl st
    | succ k ih =>
      rw [for_loop_succ]
      refine ih.trans ⟨rfl, rfl, ?_⟩
      simp [assembled_headers_append, assembled_headers]
  exact key d

theorem set_counter_header (id4 tail : List Nat) (c : Nat) (h1 : id4.length = 4)
    (h2 : tail.length = 4) :
    set_counter (id4 ++ tail) c = id4 ++ big_endian c := by
  rw [set_counter_bytes _ _ (by simp [h1, h2]), List.take_append_of_le_length (by omega),
    List.take_of_length_le (by omega)]
  simp [big_endian, Nat.shiftRight_eq_div_pow]

theorem first4_length (b : List Nat) : (first4 b).length = 4 := by simp [first4]

theorem big_endian_length (c : Nat) : (big_endian c).length = 4 := rfl

theorem send_frames_loop_headers (lib : TxLib ρ R O) (transfer : dsss_transfer_s)
    (ps delay fss : Nat) (steps : List (TxStep ρ)) :
    ∀ (st : TxState ρ R O) (c : Nat),
      st.header = first4 transfer.id ++ big_endian (c % 2 ^ 32) →
      st.counter = c % 2 ^ 32 →
      assembled_headers (send_frames_loop lib transfer ps delay fss steps st).1.events
        = assembled_headers st.events
          ++ (List.range ((results_seen steps).filter (fun r => 0 < r)).length).map
              (fun k => first4 transfer.id ++ big_endian ((c + k) % 2 ^ 32)) := by
  induction steps with
  | nil => intro st c _ _; simp [send_frames_loop, results_seen]
  | cons s rest ih =>
    intro st c hh hc
    cases s with
    | stop => simp [send_frames_loop, results_seen]
    | data r payload blocks last_block =>
      by_cases hr : r < 0
      · simp [send_frames_loop, results_seen, hr, assembled_headers_append, assembled_headers]
      · by_cases hn : r.toNat > 0
        · have hpos : 0 < r := by omega
          simp only [send_frames_loop, results_seen, hr, hn, if_true, if_false]
          have k1 := send_blocks_keeps lib transfer fss blocks
            ({ st with events := st.events
                ++ [TxEvent.data_callback transfer.callback_context ps]
                ++ [TxEvent.assemble st.header payload r.toNat] } : TxState ρ R O)
          have k2 := send_block_keeps lib transfer fss 1 last_block
            (blocks.foldl (fun st b => send_block lib transfer fss 0 b st)
              ({ st with events := st.events
                ++ [TxEvent.data_callback transfer.callback_context ps]
                ++ [TxEvent.assemble st.header payload r.toNat] } : TxState ρ R O))
          have k := k1.trans k2
          generalize send_block lib transfer fss 1 last_block
            (blocks.foldl (fun st b => send_block lib transfer fss 0 b st)
              ({ st with events := st.events
                ++ [TxEvent.data_callback transfer.callback_context ps]
                ++ [TxEvent.assemble st.header payload r.toNat] } : TxState ρ R O)) = st2
            at k ⊢
          obtain ⟨kh, kc, ke⟩ := k
          simp only at kh kc ke
          have hcnt : (st2.counter + 1) % 2 ^ 32 = (c + 1) % 2 ^ 32 := by
            rw [kc, hc]; omega
          rw [ih _ (c + 1) (by
              simp only [kh, hh, hcnt]
              exact set_counter_header _ _ _ (first4_length _) (big_endian_length _))
            (by simp only [hcnt])]
          simp only [ke, assembled_headers_append, assembled_headers, List.filter_cons,
            hpos, decide_True, if_true, List.length_cons, List.range_succ_eq_map,
            List.map_cons, List.map_map, List.append_nil, List.nil_append,
            List.append_assoc, hh, Nat.add_zero, List.singleton_append]
          congr 2
          apply List.map_congr_left
          intro k _
          simp only [Function.comp, Nat.succ_eq_add_one]
          congr 3
          omega
        · have hz : ¬ (0 < r) := by omega
          simp only [send_frames_loop, results_seen, hr, hn, if_false]
          have k := send_dummy_samples_keeps lib transfer delay 0
            ({ st with events := st.events
                ++ [TxEvent.data_callback transfer.callback_context ps] } : TxState ρ R O)
          obtain ⟨kh, kc, ke⟩ := k
          simp only at kh kc ke
          rw [ih _ c (by rw [kh, hh]) (by rw [kc, hc])]
          simp [ke, assembled_headers_append, assembled_headers, List.filter_cons, hz]

end tx

/-- C4: whatever the data callback returns and whatever the frame generator,
the resampler and the oscillator do, the headers given to
`dsssframegen_assemble` are, in call order, the four id bytes followed by the
big-endian encoding of `k mod 2 ^ 32` for `k = 0, 1, 2, ...`, one header per
positive callback result seen by the loop: a result of 0 assembles nothing and
does not advance the counter. -/
theorem send_frames_headers {ρ R O : Type} [LinearOrderedField ρ] (lib : TxLib ρ R O)
    (tenth : Nat → ℚ) (stack : List Nat) (delay frame_samples_size : Nat)
    (transfer : dsss_transfer_s) (steps : List (TxStep ρ)) :
    assembled_headers (send_frames lib tenth stack delay frame_samples_size transfer steps)
      = (List.range ((results_seen steps).filter (fun r => 0 < r)).length).map
          (fun k => first4 transfer.id ++ big_endian (k % 2 ^ 32)) := by
  have h0 : set_counter (first4 transfer.id ++ (malloc_buf stack 8).drop 4) 0
      = first4 transfer.id ++ big_endian (0 % 2 ^ 32) :=
    set_counter_header _ _ _ (first4_length _) (by simp [malloc_buf])
  have key := send_frames_loop_headers lib transfer (payload_size tenth transfer.bit_rate)
    delay frame_samples_size steps
    { header := set_counter (first4 transfer.id ++ (malloc_buf stack 8).drop 4) 0
      counter := 0, resampler := lib.resampler, oscillator := lib.oscillator, events := [] }
    0 h0 rfl
  simp only [assembled_headers, List.nil_append, Nat.zero_add] at key
  simp only [send_frames]
  split_ifs
  · rw [(send_dummy_samples_keeps lib transfer delay 1 _).2.2]
    exact key
  · exact key

/-- C5 (evaluation at the failing input): with the IO radio and otherwise valid
parameters, `dsss_transfer_create_callback` returns a session for the spreading
factor 65, although the frame generator constructor refuses 65. -/
theorem create_accepts_spreading_factor_65 :
    (∃ transfer,
        dsss_transfer_create_callback sample_env str_io 1 0 0 2000000 100 434000000 0 [48]
          id 65 str_h128 str_none [84, 69, 83, 84] none 0 0 = CreateResult.session transfer
        ∧ transfer.spreading_factor = 65)
      ∧ dsssframegen_create_set lfsr (1 : Int) [] 65 = none :=
  ⟨⟨_, rfl, rfl⟩, by decide⟩

/-! ## Reception -/

theorem frame_received_calls (g : Globals) (now : Int) (header : List Nat)
    (header_valid : Int) (payload : List Nat) (payload_size : Nat) (payload_valid : Int)
    (transfer : dsss_transfer_s) :
    callback_calls (frame_received g now header header_valid payload payload_size
        payload_valid transfer).events
      = if header_valid ≠ 0 ∧ payload_valid ≠ 0 ∧ first4 header = first4 transfer.id
        then [(transfer.data_callback, transfer.callback_context, payload, payload_size)]
        else [] := by
  by_cases hv : header_valid = 0
  · by_cases vb : g.verbose = 0 <;> by_cases pv : payload_valid = 0 <;>
      simp [frame_received, hv, pv, vb, callback_calls]
  · by_cases pv : payload_valid = 0
    · by_cases vb : g.verbose = 0 <;> simp [frame_received, hv, pv, vb, callback_calls]
    · by_cases hid : first4 header = first4 transfer.id
      · simp [frame_received, hv, pv, first4_id_local, hid, callback_calls]
      · by_cases vb : g.verbose = 0 <;>
          simp [frame_received, hv, pv, first4_id_local, hid, vb, callback_calls]

/-- C20: two frames that differ only in header bytes 4..7 (the counter) lead to
the same data-callback calls, with the same payload and size, and leave the
session and the file-scope variables in the same state. -/
theorem frame_received_counter_informational (g : Globals) (now : Int)
    (header1 header2 : List Nat) (header_valid : Int) (payload : List Nat)
    (payload_size : Nat) (payload_valid : Int) (transfer : dsss_transfer_s)
    (h : ∀ i, i < 4 → header1.getD i 0 = header2.getD i 0) :
    callback_calls (frame_received g now header1 header_valid payload payload_size
        payload_valid transfer).events
      = callback_calls (frame_received g now header2 header_valid payload payload_size
        payload_valid transfer).events
    ∧ (frame_received g now header1 header_valid payload payload_size payload_valid
        transfer).transfer
      = (frame_received g now header2 header_valid payload payload_size payload_valid
        transfer).transfer
    ∧ (frame_received g now header1 header_valid payload payload_size payload_valid
        transfer).globals
      = (frame_received g now header2 header_valid payload payload_size payload_valid
        transfer).globals
    ∧ (frame_received g now header1 header_valid payload payload_size payload_valid
        transfer).ret
      = (frame_received g now header2 header_valid payload payload_size payload_valid
        transfer).ret := by
  have e : first4 header1 = first4 header2 := by
    simp only [first4]
    apply List.map_congr_left
    intro i hi
    exact h i (by simpa using hi)
  refine ⟨?_, rfl, rfl, rfl⟩
  rw [frame_received_calls, frame_received_calls, e]

/-- Witness of C20: the same frame for the session `TEST` with counters 5 and
70000. -/
theorem frame_received_counter_informational_witness :
    callback_calls (frame_received ⟨0, 0⟩ 100 [84, 69, 83, 84, 0, 0, 0, 5] 1 [1, 2, 3] 3 1
        { bzero_transfer with id := [84, 69, 83, 84, 0] }).events
      = callback_calls (frame_received ⟨0, 0⟩ 100 [84, 69, 83, 84, 0, 1, 17, 112] 1 [1, 2, 3] 3 1
        { bzero_transfer with id := [84, 69, 83, 84, 0] }).events :=
  (frame_received_counter_informational ⟨0, 0⟩ 100 [84, 69, 83, 84, 0, 0, 0, 5]
    [84, 69, 83, 84, 0, 1, 17, 112] 1 [1, 2, 3] 3 1
    { bzero_transfer with id := [84, 69, 83, 84, 0] } (by decide)).1

theorem samples_processed_append {ρ : Type} (a b : List (RxLoopEvent ρ)) :
    samples_processed (a ++ b) = samples_processed a ++ samples_processed b := by
  induction a with
  | nil => rfl
  | cons e t ih => cases e <;> simp [samples_processed, ih]

/-- C13: in a turn of the `receive_frames` loop that is past the starvation
check, the loop is left through the timeout `break` exactly when `timeout > 0`
and the clock is strictly greater than `timeout_start + timeout`; with
`timeout = 0` that exit is never taken, whatever the clock; and on that exit
nothing but the read and the optional message happened, so the block read is
given neither to the resampler nor to the synchronizer. -/
theorem receive_timeout_exit {ρ R O S : Type} (lib : RxLib ρ R O S) (samples_size : Nat)
    (samples : List (Cplx ρ)) (now : Int) (callback_times : List Int)
    (st : RxState ρ R O S)
    (hpast : ¬ (samples.length = 0
      ∧ (st.transfer.radio_type = .IO_TYPE ∨ st.transfer.radio_type = .FILENAME))) :
    ((receive_iteration lib samples_size samples now callback_times st).2
        = some RxExit.timed_out
      ↔ (st.transfer.timeout > 0
          ∧ now > st.transfer.timeout_start + (st.transfer.timeout : Int)))
    ∧ (st.transfer.timeout = 0 →
        (receive_iteration lib samples_size samples now callback_times st).2
          ≠ some RxExit.timed_out)
    ∧ ((receive_iteration lib samples_size samples now callback_times st).2
        = some RxExit.timed_out →
        (receive_iteration lib samples_size samples now callback_times st).1.events
          = st.events ++ RxLoopEvent.receive_from_radio samples_size ::
              (if st.globals.verbose ≠ 0 then [RxLoopEvent.timeout_message st.transfer.timeout]
                else [])
        ∧ samples_processed
            (receive_iteration lib samples_size samples now callback_times st).1.events
          = samples_processed st.events) := by
  by_cases ht : st.transfer.timeout > 0
      ∧ now > st.transfer.timeout_start + (st.transfer.timeout : Int)
  · have e : receive_iteration lib samples_size samples now callback_times st
        = ((if st.globals.verbose ≠ 0 then
            { st with events := st.events ++ [RxLoopEvent.receive_from_radio samples_size]
                ++ [RxLoopEvent.timeout_message st.transfer.timeout] }
          else { st with
            events := st.events ++ [RxLoopEvent.receive_from_radio samples_size] }),
          some RxExit.timed_out) := by
      simp only [receive_iteration, hpast, ht, if_false, if_true, and_self]
    rw [e]
    refine ⟨by simp [ht], fun h0 => absurd ht.1 (by omega), fun _ => ?_⟩
    by_cases vb : st.globals.verbose = 0
    · simp [vb, samples_processed_append, samples_processed]
    · simp [vb, samples_processed_append, samples_processed]
  · have e : (receive_iteration lib samples_size samples now callback_times st).2 = none := by
      simp only [receive_iteration, hpast, ht, if_false]
    rw [e]
    refine ⟨by simp [ht], fun _ => by simp, fun h => by simp at h⟩

/-- Witness of C13: a SoapySDR session with a timeout of 10 s whose last frame
came at time 100 reads an empty block at time 111. -/
theorem receive_timeout_exit_witness :
    (receive_iteration sample_rx_lib 8 [] 111 []
        (sample_rx_state { bzero_transfer with
          radio_type := .SOAPYSDR, timeout := 10, timeout_start := 100 })).2
      = some RxExit.timed_out :=
  (receive_timeout_exit sample_rx_lib 8 [] 111 []
    (sample_rx_state { bzero_transfer with
      radio_type := .SOAPYSDR, timeout := 10, timeout_start := 100 })
    (by decide)).1.mpr (by decide)

/-- C14: in the `receive_frames` loop, a read of 0 samples from the IO or
FILENAME radio ends the loop in that turn, after the read alone (nothing goes
to the resampler or the synchronizer, and the later turns do not happen); from
the SOAPYSDR radio a read of 0 samples never takes the starvation exit, and
unless the timeout expires the loop goes on with the next turn. -/
theorem receive_zero_read {ρ R O S : Type} (lib : RxLib ρ R O S) (samples_size : Nat)
    (now : Int) (callback_times : List Int) (rest : List (RxStep ρ))
    (st : RxState ρ R O S) :
    ((st.transfer.radio_type = .IO_TYPE ∨ st.transfer.radio_type = .FILENAME) →
        receive_frames_loop lib samples_size (RxStep.read [] now callback_times :: rest) st
          = ({ st with events := st.events ++ [RxLoopEvent.receive_from_radio samples_size] },
              some RxExit.starved))
    ∧ (st.transfer.radio_type = .SOAPYSDR →
        (receive_iteration lib samples_size [] now callback_times st).2
            ≠ some RxExit.starved
        ∧ (¬ (st.transfer.timeout > 0
              ∧ now > st.transfer.timeout_start + (st.transfer.timeout : Int)) →
            receive_frames_loop lib samples_size (RxStep.read [] now callback_times :: rest) st
              = receive_frames_loop lib samples_size rest
                  (receive_iteration lib samples_size [] now callback_times st).1)) := by
  constructor
  · intro h
    simp [receive_frames_loop, receive_iteration, h]
  · intro h
    have hs : ¬ (([] : List (Cplx ρ)).length = 0
        ∧ (st.transfer.radio_type = .IO_TYPE ∨ st.transfer.radio_type = .FILENAME)) := by
      simp [h]
    constructor
    · by_cases ht : st.transfer.timeout > 0
          ∧ now > st.transfer.timeout_start + (st.transfer.timeout : Int)
      · simp [receive_iteration, h, ht]
      · simp [receive_iteration, h, ht]
    · intro ht
      have e : (receive_iteration lib samples_size [] now callback_times st).2 = none := by
        simp only [receive_iteration, hs, ht, if_false]
      simp only [receive_frames_loop]
      generalize receive_iteration lib samples_size [] now callback_times st = res at e ⊢
      obtain ⟨st2, ex⟩ := res
      simp only at e
      subst e
      rfl

/-- Witness of C14: an IO session reads 0 samples; the loop ends there although
two more turns were to come. -/
theorem receive_zero_read_witness :
    receive_frames_loop sample_rx_lib 8
        [RxStep.read [] 100 [], RxStep.read [⟨1, 0⟩] 100 [], RxStep.stop]
        (sample_rx_state bzero_transfer)
      = ({ sample_rx_state bzero_transfer with
            events := (sample_rx_state bzero_transfer).events
              ++ [RxLoopEvent.receive_from_radio 8] },
          some RxExit.starved) :=
  (receive_zero_read sample_rx_lib 8 100 [] [RxStep.read [⟨1, 0⟩] 100 [], RxStep.stop]
    (sample_rx_state bzero_transfer)).1 (Or.inl rfl)

/-! ## Leaving the transmit loop -/

section txexit
variable {ρ R O : Type} [LinearOrderedField ρ]

theorem send_frames_loop_append (lib : TxLib ρ R O) (transfer : dsss_transfer_s)
    (ps delay fss : Nat) (pre more : List (TxStep ρ)) :
    ∀ st : TxState ρ R O, pre.all turn_continues = true →
      send_frames_loop lib transfer ps delay fss (pre ++ more) st
        = send_frames_loop lib transfer ps delay fss more
            (send_frames_loop lib transfer ps delay fss pre st).1
      ∧ (send_frames_loop lib transfer ps delay fss pre st).2 = false := by
  induction pre with
  | nil => intro st _; simp [send_frames_loop]
  | cons s t ih =>
    intro st h
    simp only [List.all_cons, Bool.and_eq_true] at h
    obtain ⟨hs, ht⟩ := h
    cases s with
    | stop => simp [turn_continues] at hs
    | data r payload blocks last_block =>
      simp only [turn_continues, decide_eq_true_eq] at hs
      have hr : ¬ r < 0 := by omega
      by_cases hn : r.toNat > 0
      · simp only [List.cons_append, send_frames_loop, hr, hn, if_true, if_false]
        exact ih _ ht
      · simp only [List.cons_append, send_frames_loop, hr, hn, if_false]
        exact ih _ ht

theorem send_dummy_samples_events (lib : TxLib ρ R O) (transfer : dsss_transfer_s)
    (delay : Nat) (last : Int) (st : TxState ρ R O) :
    ∃ flush : List (TxEvent ρ),
      (send_dummy_samples lib transfer delay last st).events = st.events ++ flush
      ∧ flush.length = delay
      ∧ ∀ k, k < delay → ∃ samples,
          flush[k]? = some (TxEvent.send_to_radio samples (if k + 1 < delay then 0 else last)) := by
  unfold send_dummy_samples
  generalize hd : delay = d
  have key : ∀ k, ∃ flush : List (TxEvent ρ),
      (for_loop k
        (fun i (st : TxState ρ R O) =>
          let zero_sample : Cplx ρ := 0
          let out := lib.msresamp_crcf_execute st.resampler [zero_sample]
          let mixed :=
            if transfer.frequency_offset ≠ 0 then lib.nco_crcf_mix_block_up st.oscillator out.1
            else (out.1, st.oscillator)
          { st with
            resampler := out.2
            oscillator := mixed.2
            events := st.events ++
              [TxEvent.send_to_radio mixed.1 (if i + 1 < d then 0 else last)] })
        st).events = st.events ++ flush
      ∧ flush.length = k
      ∧ ∀ j, j < k → ∃ samples,
          flush[j]? = some (TxEvent.send_to_radio samples (if j + 1 < d then 0 else last)) := by
    intro k
    induction k with
    | zero => exact ⟨[], by simp [for_loop], rfl, fun j hj => absurd hj (by omega)⟩
    | succ k ih =>
      obtain ⟨flush, he, hl, hf⟩ := ih
      rw [for_loop_succ]
      generalize for_loop k
        (fun i (st : TxState ρ R O) =>
          let zero_sample : Cplx ρ := 0
          let out := lib.msresamp_crcf_execute st.resampler [zero_sample]
          let mixed :=
            if transfer.frequency_offset ≠ 0 then lib.nco_crcf_mix_block_up st.oscillator out.1
            else (out.1, st.oscillator)
          { st with
            resampler := out.2
            oscillator := mixed.2
            events := st.events ++
              [TxEvent.send_to_radio mixed.1 (if i + 1 < d then 0 else last)] })
        st = stk at he ⊢
      have step : ∃ smp, ∀ ev : List (TxEvent ρ), stk.events = ev →
          (let zero_sample : Cplx ρ := 0
           let out := lib.msresamp_crcf_execute stk.resampler [zero_sample]
           let mixed :=
             if transfer.frequency_offset ≠ 0 then lib.nco_crcf_mix_block_up stk.oscillator out.1
             else (out.1, stk.oscillator)
           ({ stk with
             resampler := out.2
             oscillator := mixed.2
             events := stk.events ++
               [TxEvent.send_to_radio mixed.1 (if k + 1 < d then 0 else last)] }
             : TxState ρ R O)).events
            = ev ++ [TxEvent.send_to_radio smp (if k + 1 < d then 0 else last)] :=
        ⟨_, fun ev h => by rw [← h]⟩
      obtain ⟨smp, hsmp⟩ := step
      refine ⟨flush ++ [TxEvent.send_to_radio smp (if k + 1 < d then 0 else last)], ?_, ?_, ?_⟩
      · rw [hsmp _ he, List.append_assoc]
      · simp [hl]
      · intro j hj
        by_cases hjk : j < k
        · obtain ⟨smp2, hs⟩ := hf j hjk
          exact ⟨smp2, by rw [List.getElem?_append_left (by omega), hs]⟩
        · have : j = k := by omega
          subst this
          exact ⟨smp, by rw [List.getElem?_append_right (by omega)]; simp [hl]⟩
  exact key d

end txexit

/-- C15: when the data callback returns a negative value, `send_frames` does
nothing more than the final flush: after the turns `pre` (none of which left
the loop) its output is what it had done so far, the call of the data callback,
and then exactly `delay` writes to the radio, the last of them with the flag
`last` set and the others without; no frame is assembled from that call, the
callback is not called again, and the turns listed after it have no effect. -/
theorem send_frames_negative_result {ρ R O : Type} [LinearOrderedField ρ]
    (lib : TxLib ρ R O) (tenth : Nat → ℚ) (stack : List Nat) (delay frame_samples_size : Nat)
    (transfer : dsss_transfer_s) (pre rest : List (TxStep ρ)) (r : Int)
    (payload : List Nat) (blocks : List (List (Cplx ρ))) (last_block : List (Cplx ρ))
    (hr : r < 0) (hpre : pre.all turn_continues = true) :
    ∃ flush : List (TxEvent ρ),
      send_frames lib tenth stack delay frame_samples_size transfer
          (pre ++ TxStep.data r payload blocks last_block :: rest)
        = send_frames lib tenth stack delay frame_samples_size transfer pre
            ++ TxEvent.data_callback transfer.callback_context
                (payload_size tenth transfer.bit_rate) :: flush
      ∧ flush.length = delay
      ∧ ∀ k, k < delay → ∃ samples,
          flush[k]? = some (TxEvent.send_to_radio samples (if k + 1 < delay then 0 else 1)) := by
  simp only [send_frames]
  generalize hst0 : ({ header := set_counter (first4 transfer.id ++ (malloc_buf stack 8).drop 4) 0
                       counter := 0, resampler := lib.resampler, oscillator := lib.oscillator
                       events := [] } : TxState ρ R O) = st0
  obtain ⟨happ, hfalse⟩ := send_frames_loop_append lib transfer
    (payload_size tenth transfer.bit_rate) delay frame_samples_size pre
    (TxStep.data r payload blocks last_block :: rest) st0 hpre
  rw [happ, hfalse]
  generalize (send_frames_loop lib transfer (payload_size tenth transfer.bit_rate) delay
    frame_samples_size pre st0).1 = st1
  simp only [send_frames_loop, hr, if_true, Bool.false_eq_true, if_false]
  obtain ⟨flush, he, hl, hf⟩ := send_dummy_samples_events lib transfer delay 1
    ({ st1 with events := st1.events
        ++ [TxEvent.data_callback transfer.callback_context
              (payload_size tenth transfer.bit_rate)] } : TxState ρ R O)
  exact ⟨flush, by rw [he]; simp, hl, hf⟩

/-- Witness of C15: one frame is sent, then the callback returns -1; a further
turn is listed but does not happen. -/
theorem send_frames_negative_result_witness :
    ∃ flush : List (TxEvent ℚ),
      send_frames sample_tx_lib tenth_exact [] 2 4 bzero_transfer
          ([TxStep.data 3 [1, 2, 3] [] [⟨1, 0⟩, ⟨0, 0⟩, ⟨0, 0⟩, ⟨0, 0⟩]]
            ++ TxStep.data (-1) [] [] [] :: [TxStep.data 3 [1, 2, 3] [] []])
        = send_frames sample_tx_lib tenth_exact [] 2 4 bzero_transfer
            [TxStep.data 3 [1, 2, 3] [] [⟨1, 0⟩, ⟨0, 0⟩, ⟨0, 0⟩, ⟨0, 0⟩]]
            ++ TxEvent.data_callback bzero_transfer.callback_context
                (payload_size tenth_exact bzero_transfer.bit_rate) :: flush
      ∧ flush.length = 2
      ∧ ∀ k, k < 2 → ∃ samples,
          flush[k]? = some (TxEvent.send_to_radio samples (if k + 1 < 2 then 0 else 1)) :=
  send_frames_negative_result sample_tx_lib tenth_exact [] 2 4 bzero_transfer
    [TxStep.data 3 [1, 2, 3] [] [⟨1, 0⟩, ⟨0, 0⟩, ⟨0, 0⟩, ⟨0, 0⟩]]
    [TxStep.data 3 [1, 2, 3] [] []] (-1) [] [] [] (by decide) (by decide)

/-! ## The chips of the PN sequences -/

section chips
variable {σ α : Type} [Ring α]

theorem Cplx.add_def (a b : Cplx α) : a + b = ⟨a.re + b.re, a.im + b.im⟩ := rfl

theorem Cplx.mul_def (a b : Cplx α) :
    a * b = ⟨a.re * b.re - a.im * b.im, a.re * b.im + a.im * b.re⟩ := rfl

theorem pn_chip_eq (lf : Msequence σ) (s : α) (m : σ) :
    pn_chip lf s m
      = qpsk_chip s (lf.advance m).1 (lf.advance (lf.advance m).2).1 := by
  simp [pn_chip, qpsk_chip, Cplx.ofReal, Cplx.I, Cplx.add_def, Cplx.mul_def]

theorem msequence_state_two (lf : Msequence σ) (m : σ) (i : Nat) :
    msequence_state lf m (2 * (i + 1))
      = (lf.advance (lf.advance (msequence_state lf m (2 * i))).2).2 := by
  have : 2 * (i + 1) = (2 * i + 1) + 1 := by ring
  rw [this]
  rfl

theorem chip_loop_closed (lf : Msequence σ) (s : α) (n : Nat) (buf : List (Cplx α)) (m : σ)
    (hb : buf.length = n) (k : Nat) (hk : k ≤ n) :
    (for_loop k (dsssframegen_chip_body lf s) (buf, m)).2 = msequence_state lf m (2 * k)
      ∧ (for_loop k (dsssframegen_chip_body lf s) (buf, m)).1.take k = pn_sequence lf s m k
      ∧ (for_loop k (dsssframegen_chip_body lf s) (buf, m)).1.length = n := by
  induction k with
  | zero => simp [for_loop, hb, pn_sequence, msequence_state]
  | succ k ih =>
    obtain ⟨e2, e1, l1⟩ := ih (by omega)
    rw [for_loop_succ]
    generalize for_loop k (dsssframegen_chip_body lf s) (buf, m) = st1 at *
    obtain ⟨c1, m1⟩ := st1
    simp only at e2 e1 l1
    subst e2
    rw [dsssframegen_chip_body_eq _ _ _ _ _ (by omega)]
    refine ⟨(msequence_state_two lf m k).symm, ?_, by simp [l1]⟩
    simp only
    rw [take_succ_set _ _ _ (by omega), e1, pn_chip_eq]
    simp only [pn_sequence, List.range_succ, List.map_append, List.map_cons, List.map_nil]
    rfl

theorem chip_loop_eq (lf : Msequence σ) (s : α) (n : Nat) (buf : List (Cplx α)) (m : σ)
    (hb : buf.length = n) :
    (for_loop n (dsssframegen_chip_body lf s) (buf, m)).1 = pn_sequence lf s m n := by
  obtain ⟨_, e, l⟩ := chip_loop_closed lf s n buf m hb n (le_refl n)
  rw [List.take_of_length_le (by omega)] at e
  exact e

end chips
theorem pn_sequence_mem {σ α : Type} [Neg α] (lf : Msequence σ) (s : α) (m : σ) (n : Nat)
    (c : Cplx α) (hc : c ∈ pn_sequence lf s m n) : ∃ b0 b1, c = qpsk_chip s b0 b1 := by
  simp only [pn_sequence, List.mem_map] at hc
  obtain ⟨i, _, rfl⟩ := hc
  exact ⟨_, _, rfl⟩

theorem qpsk_chip_parts {α : Type} [LinearOrderedField α] (s : α) (b0 b1 : Nat) :
    ((qpsk_chip s b0 b1).re = s ∨ (qpsk_chip s b0 b1).re = -s)
      ∧ ((qpsk_chip s b0 b1).im = s ∨ (qpsk_chip s b0 b1).im = -s)
      ∧ (qpsk_chip s b0 b1).re * (qpsk_chip s b0 b1).re
          + (qpsk_chip s b0 b1).im * (qpsk_chip s b0 b1).im = 2 * (s * s) := by
  by_cases h0 : b0 = 0 <;> by_cases h1 : b1 = 0 <;>
    simp [qpsk_chip, h0, h1] <;> ring

theorem create_set_chips {σ α : Type} [LinearOrderedField α] (lf : Msequence σ)
    (sqrt1_2 : α) (garbage : List (Cplx α)) (N : Nat) (hN : 2 ≤ N ∧ N ≤ 64) :
    ∃ g s, dsssframegen_create_set lf sqrt1_2 garbage N = some g
      ∧ dsssframesync_create_set lf sqrt1_2 N = some s
      ∧ g.preamble_pn.length = 64 ∧ g.header_synth.length = N ∧ g.payload_synth.length = N
      ∧ s.preamble_pn.length = 64 ∧ s.header_synth.length = N ∧ s.payload_synth.length = N
      ∧ ∀ c, c ∈ g.preamble_pn ++ g.header_synth ++ g.payload_synth
            ++ s.preamble_pn ++ s.header_synth ++ s.payload_synth →
          ∃ b0 b1, c = qpsk_chip sqrt1_2 b0 b1 := by
  have hn : ¬ (N < 2 ∨ N > 64) := by omega
  refine ⟨_, _, by rw [dsssframegen_create_set, if_neg hn],
    by rw [dsssframesync_create_set, if_neg hn], ?_, ?_, ?_, ?_, ?_, ?_, ?_⟩
  all_goals simp only [dsssframesync_chip_body_eq]
  all_goals repeat (first
    | rw [chip_loop_eq lf sqrt1_2 _ _ _ (malloc_buf_length _ _)]
    | rw [chip_loop_eq lf sqrt1_2 _ _ _ (calloc_buf_length _)])
  all_goals try simp only [pn_sequence, List.length_map, List.length_range]
  intro c hc
  simp only [List.mem_append] at hc
  have hm : ∃ m n, c ∈ pn_sequence lf sqrt1_2 m n := by
    rcases hc with ((((h | h) | h) | h) | h) | h <;> exact ⟨_, _, h⟩
  obtain ⟨m, n, h⟩ := hm
  exact pn_sequence_mem lf sqrt1_2 m n c h

/-- C16 (counterexample): with the value that the `float` chips hold for
`M_SQRT1_2`, `11863283 / 16777216`, the concrete LFSR and spreading factor 2, the
constructors succeed, the sequences are not empty, and every chip has squared
magnitude `140737483538089 / 140737488355328`, not 1; the square of its real
part is not `1/2`. -/
theorem create_set_chips_not_unit :
    ∃ g s, dsssframegen_create_set lfsr (11863283 / 16777216 : ℚ) [] 2 = some g
      ∧ dsssframesync_create_set lfsr (11863283 / 16777216 : ℚ) 2 = some s
      ∧ g.preamble_pn.length = 64 ∧ g.header_synth.length = 2
      ∧ ∀ c, c ∈ g.preamble_pn ++ g.header_synth ++ g.payload_synth
            ++ s.preamble_pn ++ s.header_synth ++ s.payload_synth →
          c.re * c.re + c.im * c.im = 140737483538089 / 140737488355328
            ∧ c.re * c.re + c.im * c.im ≠ 1
            ∧ c.re * c.re ≠ 1 / 2 := by
  obtain ⟨g, s, hg, hs, l1, l2, _, _, _, _, h⟩ :=
    create_set_chips lfsr (11863283 / 16777216 : ℚ) [] 2 (by decide)
  refine ⟨g, s, hg, hs, l1, l2, ?_⟩
  intro c hc
  obtain ⟨b0, b1, rfl⟩ := h c hc
  obtain ⟨hre, _, hsq⟩ := qpsk_chip_parts (11863283 / 16777216 : ℚ) b0 b1
  rw [hsq]
  refine ⟨by norm_num, by norm_num, ?_⟩
  rcases hre with e | e <;> rw [e] <;> norm_num

/-- C16 (amended): for `N` in `[2, 64]` and every LFSR, every chip of the preamble
and of the spreading sequences held by the generator and by the synchronizer
has its real part and its imaginary part equal to `sqrt1_2` or `-sqrt1_2`, for
the value `sqrt1_2` that the program holds for `M_SQRT1_2`; its squared
magnitude is `2 * sqrt1_2 * sqrt1_2`, which is exactly 1 if and only if
`sqrt1_2 * sqrt1_2 = 1 / 2`. -/
theorem create_set_chips_magnitude {σ α : Type} [LinearOrderedField α] (lf : Msequence σ)
    (sqrt1_2 : α) (garbage : List (Cplx α)) (N : Nat) (hN : 2 ≤ N ∧ N ≤ 64) :
    ∃ g s, dsssframegen_create_set lf sqrt1_2 garbage N = some g
      ∧ dsssframesync_create_set lf sqrt1_2 N = some s
      ∧ ∀ c, c ∈ g.preamble_pn ++ g.header_synth ++ g.payload_synth
            ++ s.preamble_pn ++ s.header_synth ++ s.payload_synth →
          (c.re = sqrt1_2 ∨ c.re = -sqrt1_2) ∧ (c.im = sqrt1_2 ∨ c.im = -sqrt1_2)
            ∧ c.re * c.re + c.im * c.im = 2 * (sqrt1_2 * sqrt1_2)
            ∧ (c.re * c.re + c.im * c.im = 1 ↔ sqrt1_2 * sqrt1_2 = 1 / 2) := by
  obtain ⟨g, s, hg, hs, _, _, _, _, _, _, h⟩ := create_set_chips lf sqrt1_2 garbage N hN
  refine ⟨g, s, hg, hs, ?_⟩
  intro c hc
  obtain ⟨b0, b1, rfl⟩ := h c hc
  obtain ⟨hre, him, hsq⟩ := qpsk_chip_parts sqrt1_2 b0 b1
  refine ⟨hre, him, hsq, ?_⟩
  rw [hsq]
  constructor
  · intro e
    linarith
  · intro e
    rw [e]
    norm_num

/-- Witness of C16 with the value `11863283 / 16777216` that the `float` chips
hold for `M_SQRT1_2`, the concrete LFSR and spreading factor 4. -/
theorem create_set_chips_magnitude_witness :
    ∃ g s, dsssframegen_create_set lfsr (11863283 / 16777216 : ℚ) [] 4 = some g
      ∧ dsssframesync_create_set lfsr (11863283 / 16777216 : ℚ) 4 = some s
      ∧ ∀ c, c ∈ g.preamble_pn ++ g.header_synth ++ g.payload_synth
            ++ s.preamble_pn ++ s.header_synth ++ s.payload_synth →
          (c.re = 11863283 / 16777216 ∨ c.re = -(11863283 / 16777216))
            ∧ (c.im = 11863283 / 16777216 ∨ c.im = -(11863283 / 16777216))
            ∧ c.re * c.re + c.im * c.im
              = 2 * ((11863283 / 16777216 : ℚ) * (11863283 / 16777216))
            ∧ (c.re * c.re + c.im * c.im = 1
              ↔ (11863283 / 16777216 : ℚ) * (11863283 / 16777216) = 1 / 2) :=
  create_set_chips_magnitude lfsr (11863283 / 16777216 : ℚ) [] 4 (by decide)

/-! ## Resampling ratios -/

/-- C18 (counterexample): for the spreading factor `2 ^ 31` the `unsigned int`
product `spreading_factor * samples_per_symbol` wraps to 0, so `samples_per_bit`
is 0 and the two ratios are not reciprocal (their product is not 1). -/
theorem resampling_ratio_wraps :
    samples_per_bit { bzero_transfer with
        sample_rate := 2000000, bit_rate := 100, spreading_factor := 2147483648 } = 0
      ∧ send_frames_resampling_ratio { bzero_transfer with
          sample_rate := 2000000, bit_rate := 100, spreading_factor := 2147483648 }
        * receive_frames_resampling_ratio { bzero_transfer with
          sample_rate := 2000000, bit_rate := 100, spreading_factor := 2147483648 } ≠ 1 := by
  have h : samples_per_bit { bzero_transfer with
      sample_rate := 2000000, bit_rate := 100, spreading_factor := 2147483648 } = 0 := by
    simp [samples_per_bit]
  refine ⟨h, ?_⟩
  simp [send_frames_resampling_ratio, receive_frames_resampling_ratio, h]

/-- C18 (amended): for a session with `sample_rate > 0`, `bit_rate > 0` and a
spreading factor `n >= 2` with `n * 2 < 2 ^ 32` (every `n` in `[2, 64]` is one),
over exact rational arithmetic the ratio of `send_frames` is
`sample_rate / (bit_rate * n * 2)`, the ratio of `receive_frames` is
`(bit_rate * n * 2) / sample_rate`, each is the reciprocal of the other and
their product is 1. -/
theorem resampling_ratios_reciprocal (transfer : dsss_transfer_s)
    (hsr : transfer.sample_rate > 0) (hbr : transfer.bit_rate > 0)
    (hsf : transfer.spreading_factor ≥ 2) (hw : transfer.spreading_factor * 2 < 2 ^ 32) :
    send_frames_resampling_ratio transfer
        = (transfer.sample_rate : ℚ)
          / ((transfer.bit_rate : ℚ) * (transfer.spreading_factor : ℚ) * 2)
      ∧ receive_frames_resampling_ratio transfer
        = ((transfer.bit_rate : ℚ) * (transfer.spreading_factor : ℚ) * 2)
          / (transfer.sample_rate : ℚ)
      ∧ receive_frames_resampling_ratio transfer = (send_frames_resampling_ratio transfer)⁻¹
      ∧ send_frames_resampling_ratio transfer * receive_frames_resampling_ratio transfer
        = 1 := by
  have hspb : samples_per_bit transfer = (transfer.spreading_factor : ℚ) * 2 := by
    simp only [samples_per_bit, Nat.mod_eq_of_lt hw]
    push_cast
    ring
  have h1 : (transfer.sample_rate : ℚ) ≠ 0 := by
    have : (0 : ℚ) < transfer.sample_rate := by exact_mod_cast hsr
    exact ne_of_gt this
  have h2 : (transfer.bit_rate : ℚ) ≠ 0 := by
    have : (0 : ℚ) < transfer.bit_rate := by exact_mod_cast hbr
    exact ne_of_gt this
  have h3 : (transfer.spreading_factor : ℚ) ≠ 0 := by
    have : (0 : ℚ) < transfer.spreading_factor := by
      have : 0 < transfer.spreading_factor := by omega
      exact_mod_cast this
    exact ne_of_gt this
  simp only [send_frames_resampling_ratio, receive_frames_resampling_ratio, hspb]
  refine ⟨by rw [mul_assoc], by rw [mul_assoc], ?_, ?_⟩
  · rw [inv_div]
  · field_simp

/-- Witness of C18: 2000000 S/s, 100 b/s and spreading factor 64. -/
theorem resampling_ratios_reciprocal_witness :
    send_frames_resampling_ratio { bzero_transfer with
        sample_rate := 2000000, bit_rate := 100, spreading_factor := 64 }
      * receive_frames_resampling_ratio { bzero_transfer with
        sample_rate := 2000000, bit_rate := 100, spreading_factor := 64 } = 1 :=
  (resampling_ratios_reciprocal { bzero_transfer with
      sample_rate := 2000000, bit_rate := 100, spreading_factor := 64 }
    (by decide) (by decide) (by decide) (by decide)).2.2.2

/-! ## The option `-e` -/

theorem takeWhile_nonzero_append (l t : List Nat) (h : ∀ b ∈ l, b ≠ 0) :
    (l ++ 0 :: t).takeWhile (fun b => b ≠ 0) = l := by
  induction l with
  | nil => simp
  | cons a r ih =>
    have ha : a ≠ 0 := h a (List.mem_cons_self _ _)
    have hr : ∀ b ∈ r, b ≠ 0 := fun b hb => h b (List.mem_cons_of_mem _ hb)
    rw [List.cons_append, List.takeWhile_cons_of_pos (by simpa using ha), ih hr]

theorem indexOf_eq_takeWhile (s : List Nat) (c : Nat) :
    s.indexOf c = (s.takeWhile (fun b => b ≠ c)).length := by
  induction s with
  | nil => rfl
  | cons a r ih =>
    by_cases h : a = c
    · rw [List.takeWhile_cons_of_neg (by simpa using h)]
      simp [List.indexOf_cons, h]
    · have h2 : (a == c) = false := by simpa using h
      rw [List.takeWhile_cons_of_pos (by simpa using h)]
      simp [List.indexOf_cons, h2, ih]

theorem split_at_comma (s : List Nat) :
    (44 ∉ s ∧ s.takeWhile (fun b => b ≠ 44) = s)
      ∨ (44 ∈ s ∧ ∃ r, s = s.takeWhile (fun b => b ≠ 44) ++ 44 :: r
          ∧ s.dropWhile (fun b => b ≠ 44) = 44 :: r) := by
  induction s with
  | nil => left; simp
  | cons a t ih =>
    by_cases h : a = 44
    · right
      subst h
      refine ⟨List.mem_cons_self _ _, t, ?_, ?_⟩
      · rw [List.takeWhile_cons_of_neg (by simp)]
        rfl
      · rw [List.dropWhile_cons_of_neg (by simp)]
    · rcases ih with ⟨hn, ht⟩ | ⟨hm, r, hs, hd⟩
      · left
        refine ⟨?_, ?_⟩
        · simp only [List.mem_cons, not_or]
          exact ⟨fun e => h e.symm, hn⟩
        · rw [List.takeWhile_cons_of_pos (by simpa using h), ht]
      · right
        refine ⟨List.mem_cons_of_mem _ hm, r, ?_, ?_⟩
        · rw [List.takeWhile_cons_of_pos (by simpa using h), List.cons_append, ← hs]
        · rw [List.dropWhile_cons_of_pos (by simpa using h), hd]

theorem takeWhile_no_comma (s : List Nat) : 44 ∉ s.takeWhile (fun b => b ≠ 44) := by
  intro h
  have := List.mem_takeWhile_imp h
  simp at this

/-- C19: for every option string `s` (a C string, without NUL bytes),
`get_fec_schemes` writes to `inner_fec` the part of `s` before its first comma
(all of `s` without a comma) and to `outer_fec` the part after its first comma,
or `"none"` without a comma; a part of 32 characters or more is replaced by
`"unknown"`. -/
theorem get_fec_schemes_eq (s : CString) (hs : ∀ b ∈ s, b ≠ 0) :
    get_fec_schemes s = fec_option s := by
  have h0 : string_at (s ++ [0]) 0 = s := by
    simp only [string_at, List.drop_zero]
    exact takeWhile_nonzero_append s [] hs
  rcases split_at_comma s with ⟨hn, ht⟩ | ⟨hm, r, hsplit, hd⟩
  · have hidx : ¬ (s.indexOf 44 < s.length) := by
      rw [indexOf_eq_takeWhile, ht]
      omega
    have hchr : strchr (s ++ [0]) 44 = none := by
      simp only [strchr, h0, hidx, if_false]
    have hlen : strlen_at (s ++ [0]) 0 = s.length := by
      have := congrArg List.length h0
      exact this
    simp only [get_fec_schemes, hchr, hlen, h0, fec_option, hn, ht, fec_part, if_false]
  · generalize hp : s.takeWhile (fun b => b ≠ 44) = p at hsplit
    have hplen : s.indexOf 44 = p.length := by rw [indexOf_eq_takeWhile, hp]
    have hlt : s.indexOf 44 < s.length := by
      rw [hplen]
      conv_rhs => rw [hsplit]
      simp
    have hchr : strchr (s ++ [0]) 44 = some p.length := by
      simp only [strchr, h0]
      rw [if_pos hlt, hplen]
    have hp0 : ∀ b ∈ p, b ≠ 0 := fun b hb => hs b (by rw [hsplit]; simp [hb])
    have hr0 : ∀ b ∈ r, b ≠ 0 := fun b hb => hs b (by rw [hsplit]; simp [hb])
    have hset : (s ++ [0]).set p.length 0 = p ++ 0 :: (r ++ [0]) := by
      conv_lhs => rw [hsplit]
      simp [List.set_append]
    have hin : string_at (p ++ 0 :: (r ++ [0])) 0 = p := by
      simp only [string_at, List.drop_zero]
      exact takeWhile_nonzero_append p _ hp0
    have hout : string_at (p ++ 0 :: (r ++ [0])) (p.length + 1) = r := by
      simp only [string_at]
      rw [List.drop_append_eq_append_drop]
      simp only [List.drop_of_length_le (Nat.le_succ p.length), List.nil_append,
        Nat.add_sub_cancel_left, List.drop_succ_cons, List.drop_zero]
      exact takeWhile_nonzero_append r [] hr0
    have hinl : strlen_at (p ++ 0 :: (r ++ [0])) 0 = p.length := congrArg List.length hin
    have houtl : strlen_at (p ++ 0 :: (r ++ [0])) (p.length + 1) = r.length :=
      congrArg List.length hout
    simp only [get_fec_schemes, hchr, hset, hin, hout, hinl, houtl, fec_option, hm, hp, hd,
      fec_part, if_true, List.drop_succ_cons, List.drop_zero]

/-- Witness of C19 on the default value `h128,none` of the option. -/
theorem get_fec_schemes_eq_witness :
    get_fec_schemes [104, 49, 50, 56, 44, 110, 111, 110, 101]
      = fec_option [104, 49, 50, 56, 44, 110, 111, 110, 101]
    ∧ fec_option [104, 49, 50, 56, 44, 110, 111, 110, 101] = (str_h128, str_none) :=
  ⟨get_fec_schemes_eq [104, 49, 50, 56, 44, 110, 111, 110, 101] (by decide), by decide⟩

/-! ## Amplitude normalisation -/

section amplitude
variable {ρ : Type} [LinearOrderedField ρ]

theorem trim_padding_le (fs : List (Cplx ρ)) (n : Nat) : trim_padding fs n ≤ n := by
  induction n with
  | zero => simp [trim_padding]
  | succ n ih =>
    simp only [trim_padding]
    split_ifs
    · omega
    · omega

theorem forwarded_count_le (fss : Nat) (fc : Int) (fs : List (Cplx ρ)) :
    forwarded_count fss fc fs ≤ fss := by
  simp only [forwarded_count]
  split_ifs
  · exact trim_padding_le fs fss
  · exact le_refl _

theorem maximum_amplitude_succ (cabsf : Cplx ρ → ρ) (fs : List (Cplx ρ)) (n : Nat) :
    maximum_amplitude cabsf fs (n + 1)
      = max (maximum_amplitude cabsf fs n) (cabsf (fs.getD n 0)) := by
  simp only [maximum_amplitude, for_loop_succ]
  split_ifs with h
  · exact (max_eq_right (le_of_lt h)).symm
  · exact (max_eq_left (not_lt.mp h)).symm

theorem peak_append_singleton (cabsf : Cplx ρ → ρ) (l : List (Cplx ρ)) (x : Cplx ρ) :
    peak cabsf (l ++ [x]) = max (peak cabsf l) (cabsf x) := by
  simp [peak, List.foldl_append]

theorem maximum_amplitude_eq (cabsf : Cplx ρ → ρ) (fs : List (Cplx ρ)) (n : Nat)
    (hn : n ≤ fs.length) :
    maximum_amplitude cabsf fs n = max 1 (peak cabsf (fs.take n)) := by
  induction n with
  | zero => simp [maximum_amplitude, for_loop, peak]
  | succ n ih =>
    have hlt : n < fs.length := by omega
    rw [maximum_amplitude_succ, ih (by omega), List.take_succ,
      List.getElem?_eq_getElem hlt]
    simp only [Option.toList_some]
    rw [peak_append_singleton, max_assoc, List.getD_eq_getElem?_getD,
      List.getElem?_eq_getElem hlt]
    rfl

theorem peak_scaled_from (cabsf : Cplx ρ → ρ) (c : ρ) (hc : 0 ≤ c)
    (hmul : ∀ x : Cplx ρ, cabsf (x * Cplx.ofReal c) = cabsf x * c) (l : List (Cplx ρ)) :
    ∀ a : ρ, (l.map (fun x => x * Cplx.ofReal c)).foldl (fun m x => max m (cabsf x)) (a * c)
      = l.foldl (fun m x => max m (cabsf x)) a * c := by
  induction l with
  | nil => intro a; rfl
  | cons x t ih =>
    intro a
    simp only [List.map_cons, List.foldl_cons, hmul]
    rw [← max_mul_of_nonneg _ _ hc]
    exact ih _

theorem peak_scaled (cabsf : Cplx ρ → ρ) (c : ρ) (hc : 0 ≤ c)
    (hmul : ∀ x : Cplx ρ, cabsf (x * Cplx.ofReal c) = cabsf x * c) (l : List (Cplx ρ)) :
    peak cabsf (l.map (fun x => x * Cplx.ofReal c)) = peak cabsf l * c := by
  have := peak_scaled_from cabsf c hc hmul l 0
  rw [zero_mul] at this
  exact this

theorem mulscalar_take (fs : List (Cplx ρ)) (n : Nat) (c : ρ) (hn : n ≤ fs.length) :
    (mulscalar fs n c).take n = (fs.take n).map (fun x => x * Cplx.ofReal c) := by
  simp only [mulscalar]
  rw [List.take_append_of_le_length (by simp [hn])]
  apply List.take_of_length_le
  simp

theorem resampler_input_peak (cabsf : Cplx ρ → ρ)
    (hmul : ∀ (x : Cplx ρ) (c : ρ), 0 ≤ c → cabsf (x * Cplx.ofReal c) = cabsf x * c)
    (fss : Nat) (fc : Int) (fs : List (Cplx ρ)) (hlen : fss ≤ fs.length) :
    peak cabsf (resampler_input cabsf fss fc fs)
      = peak cabsf (fs.take (forwarded_count fss fc fs))
        * (3 / 4 / max 1 (peak cabsf (fs.take (forwarded_count fss fc fs)))) := by
  have hn : forwarded_count fss fc fs ≤ fs.length :=
    le_trans (forwarded_count_le fss fc fs) hlen
  have hpos : (0 : ρ) ≤ 3 / 4 / max 1 (peak cabsf (fs.take (forwarded_count fss fc fs))) := by
    apply div_nonneg (by norm_num)
    exact le_trans zero_le_one (le_max_left _ _)
  simp only [resampler_input]
  rw [mulscalar_take _ _ _ hn, maximum_amplitude_eq cabsf fs _ hn]
  exact peak_scaled cabsf _ hpos (fun x => hmul x _ hpos) _

end amplitude
theorem real_modulus_scaled (x : Cplx ℝ) (c : ℝ) (hc : 0 ≤ c) :
    Real.sqrt ((x * Cplx.ofReal c).re * (x * Cplx.ofReal c).re
        + (x * Cplx.ofReal c).im * (x * Cplx.ofReal c).im)
      = Real.sqrt (x.re * x.re + x.im * x.im) * c := by
  have e : (x * Cplx.ofReal c).re * (x * Cplx.ofReal c).re
      + (x * Cplx.ofReal c).im * (x * Cplx.ofReal c).im
      = (x.re * x.re + x.im * x.im) * (c * c) := by
    simp only [Cplx.mul_def, Cplx.ofReal]
    ring
  rw [e, Real.sqrt_mul (add_nonneg (mul_self_nonneg _) (mul_self_nonneg _)),
    Real.sqrt_mul_self hc]

/-- C11 (counterexample): over the reals, with the true modulus, `send_block` on
the one-sample block `[1/2]` gives the resampler (which here hands its input on
to `send_to_radio`) a block scaled by `0.75` only; its peak is `3/8`, not
`3/4`. -/
theorem send_block_peak_below :
    ∃ sent : List (Cplx ℝ),
      (send_block (transparent_tx_lib (fun c : Cplx ℝ => Real.sqrt (c.re * c.re + c.im * c.im)))
          bzero_transfer 1 0 [⟨1 / 2, 0⟩] ⟨[], 0, 0, 0, []⟩).events
        = [TxEvent.send_to_radio sent 0]
      ∧ peak (fun c : Cplx ℝ => Real.sqrt (c.re * c.re + c.im * c.im)) sent = 3 / 8
      ∧ peak (fun c : Cplx ℝ => Real.sqrt (c.re * c.re + c.im * c.im)) sent ≠ 3 / 4 := by
  refine ⟨resampler_input (fun c : Cplx ℝ => Real.sqrt (c.re * c.re + c.im * c.im)) 1 0
    [⟨1 / 2, 0⟩], ?_, ?_⟩
  · rfl
  have hp : peak (fun c : Cplx ℝ => Real.sqrt (c.re * c.re + c.im * c.im))
      (([⟨1 / 2, 0⟩] : List (Cplx ℝ)).take (forwarded_count 1 0 ([⟨1 / 2, 0⟩] : List (Cplx ℝ)))) = 1 / 2 := by
    have h2 : Real.sqrt ((1 / 2 : ℝ) * (1 / 2) + 0 * 0) = 1 / 2 := by
      rw [mul_zero, add_zero]
      exact Real.sqrt_mul_self (by norm_num)
    simp only [forwarded_count, ne_eq, not_true_eq_false, if_false, List.take_succ_cons,
      List.take_zero, peak, List.foldl_cons, List.foldl_nil, h2]
    exact max_eq_right (by norm_num)
  have h := resampler_input_peak (fun c : Cplx ℝ => Real.sqrt (c.re * c.re + c.im * c.im))
    real_modulus_scaled 1 0 [⟨1 / 2, 0⟩] (by simp)
  rw [hp, max_eq_left (by norm_num : (1 / 2 : ℝ) ≤ 1)] at h
  rw [h]
  constructor <;> norm_num

/-- C11 (amended): for every call of `send_block`, the loop body of `send_frames`
(the buffer holding at least `frame_samples_size` samples), the block handed to
`msresamp_crcf_execute`, whose output is mixed up when `frequency_offset` is
not zero and sent to the radio, is `resampler_input`; with `P` the peak
magnitude of the forwarded samples before normalisation, the peak of that block
is `P * (0.75 / max(1, P))`: it equals 0.75 when `P >= 1`, and it is `0.75 * P`,
below 0.75, when `P < 1`. The magnitude `cabsf` of the library is any function
with `cabsf (x * c) = cabsf x * c` for real `c >= 0`, as the modulus over the
reals. -/
theorem send_block_normalised_peak {ρ R O : Type} [LinearOrderedField ρ] (lib : TxLib ρ R O)
    (hmul : ∀ (x : Cplx ρ) (c : ρ), 0 ≤ c → lib.cabsf (x * Cplx.ofReal c) = lib.cabsf x * c)
    (transfer : dsss_transfer_s)
    (frame_samples_size : Nat) (frame_complete : Int) (frame_samples : List (Cplx ρ))
    (st : TxState ρ R O)
    (hlen : frame_samples_size ≤ frame_samples.length) :
    (send_block lib transfer frame_samples_size frame_complete frame_samples st).resampler
        = (lib.msresamp_crcf_execute st.resampler
            (resampler_input lib.cabsf frame_samples_size frame_complete frame_samples)).2
      ∧ (send_block lib transfer frame_samples_size frame_complete frame_samples st).events
        = st.events ++ [TxEvent.send_to_radio
            (if transfer.frequency_offset ≠ 0 then
              (lib.nco_crcf_mix_block_up st.oscillator
                (lib.msresamp_crcf_execute st.resampler
                  (resampler_input lib.cabsf frame_samples_size frame_complete
                    frame_samples)).1).1
            else (lib.msresamp_crcf_execute st.resampler
              (resampler_input lib.cabsf frame_samples_size frame_complete
                frame_samples)).1) 0]
      ∧ peak lib.cabsf
          (resampler_input lib.cabsf frame_samples_size frame_complete frame_samples)
        = peak lib.cabsf (frame_samples.take
            (forwarded_count frame_samples_size frame_complete frame_samples))
          * (3 / 4 / max 1 (peak lib.cabsf (frame_samples.take
            (forwarded_count frame_samples_size frame_complete frame_samples))))
      ∧ (1 ≤ peak lib.cabsf (frame_samples.take
            (forwarded_count frame_samples_size frame_complete frame_samples)) →
          peak lib.cabsf
              (resampler_input lib.cabsf frame_samples_size frame_complete frame_samples)
            = 3 / 4)
      ∧ (peak lib.cabsf (frame_samples.take
            (forwarded_count frame_samples_size frame_complete frame_samples)) < 1 →
          peak lib.cabsf
              (resampler_input lib.cabsf frame_samples_size frame_complete frame_samples)
              = 3 / 4 * peak lib.cabsf (frame_samples.take
                (forwarded_count frame_samples_size frame_complete frame_samples))
            ∧ peak lib.cabsf (resampler_input lib.cabsf frame_samples_size frame_complete
                frame_samples) < 3 / 4) := by
  have h := resampler_input_peak lib.cabsf hmul frame_samples_size frame_complete
    frame_samples hlen
  refine ⟨rfl, (by
    by_cases h : transfer.frequency_offset = 0 <;>
      simp [send_block, resampler_input, forwarded_count, h]), ?_⟩
  generalize peak lib.cabsf (frame_samples.take
    (forwarded_count frame_samples_size frame_complete frame_samples)) = P at h ⊢
  refine ⟨h, ?_, ?_⟩
  · intro hP
    rw [h, max_eq_right hP]
    have : P ≠ 0 := ne_of_gt (lt_of_lt_of_le zero_lt_one hP)
    field_simp
    ring
  · intro hP
    rw [h, max_eq_left (le_of_lt hP)]
    constructor
    · ring
    · linarith

/-- Witness of C11 over the reals with the true modulus: `send_block` on the block
`[3 + 4i, 0]` of a completed frame, of which one sample of magnitude 5 is
forwarded; the block sent on has peak `3/4`. -/
theorem send_block_normalised_peak_witness :
    (send_block (transparent_tx_lib (fun c : Cplx ℝ => Real.sqrt (c.re * c.re + c.im * c.im)))
        bzero_transfer 2 1 [⟨3, 4⟩, ⟨0, 0⟩] ⟨[], 0, 0, 0, []⟩).events
      = [TxEvent.send_to_radio
          (resampler_input (fun c : Cplx ℝ => Real.sqrt (c.re * c.re + c.im * c.im)) 2 1
            [⟨3, 4⟩, ⟨0, 0⟩]) 0]
    ∧ peak (fun c : Cplx ℝ => Real.sqrt (c.re * c.re + c.im * c.im))
      (resampler_input (fun c : Cplx ℝ => Real.sqrt (c.re * c.re + c.im * c.im)) 2 1
        [⟨3, 4⟩, ⟨0, 0⟩]) = 3 / 4 := by
  have hc : forwarded_count 2 1 ([⟨3, 4⟩, ⟨0, 0⟩] : List (Cplx ℝ)) = 1 := by
    have z : ((⟨0, 0⟩ : Cplx ℝ) = 0) := rfl
    have nz : ¬ ((⟨3, 4⟩ : Cplx ℝ) = 0) := by
      intro h
      have := congrArg Cplx.re h
      have h0 : (0 : Cplx ℝ).re = 0 := rfl
      rw [h0] at this
      norm_num at this
    simp [forwarded_count, trim_padding, z, nz]
  have hP : 1 ≤ peak (fun c : Cplx ℝ => Real.sqrt (c.re * c.re + c.im * c.im))
      (([⟨3, 4⟩, ⟨0, 0⟩] : List (Cplx ℝ)).take
        (forwarded_count 2 1 ([⟨3, 4⟩, ⟨0, 0⟩] : List (Cplx ℝ)))) := by
    rw [hc]
    simp only [List.take_succ_cons, List.take_zero, peak, List.foldl_cons, List.foldl_nil]
    apply le_max_of_le_right
    exact Real.le_sqrt_of_sq_le (by norm_num)
  have w := send_block_normalised_peak
    (transparent_tx_lib (fun c : Cplx ℝ => Real.sqrt (c.re * c.re + c.im * c.im)))
    real_modulus_scaled bzero_transfer 2 1 [⟨3, 4⟩, ⟨0, 0⟩] ⟨[], 0, 0, 0, []⟩ (by simp)
  exact ⟨w.2.1, w.2.2.2.1 hP⟩

/-! ## Stop flags -/

/-- C22: `dsss_transfer_stop` on the session at address `t` sets the stop flag
of that session to 1 and changes nothing else (the file-scope variables, the
other fields of that session and every other session stay as they were);
`dsss_transfer_stop_all` sets the process-wide flag to 1 and leaves `verbose`
and every session, hence every per-session flag, as they were. -/
theorem stop_frame (w : World) (t : Nat) :
    (dsss_transfer_stop w t).globals = w.globals
      ∧ (dsss_transfer_stop w t).sessions t = { w.sessions t with stop := 1 }
      ∧ ((dsss_transfer_stop w t).sessions t).stop = 1
      ∧ (∀ u, u ≠ t → (dsss_transfer_stop w t).sessions u = w.sessions u)
      ∧ (dsss_transfer_stop_all w).globals.stop = 1
      ∧ (dsss_transfer_stop_all w).globals.verbose = w.globals.verbose
      ∧ (dsss_transfer_stop_all w).sessions = w.sessions := by
  refine ⟨rfl, ?_, ?_, ?_, rfl, rfl, rfl⟩
  · simp [dsss_transfer_stop]
  · simp [dsss_transfer_stop]
  · intro u hu
    simp [dsss_transfer_stop, hu]

/-- Witness of C22: of two sessions at addresses 1 and 2, the one at address 1
is stopped; the one at address 2 is as before. -/
theorem stop_frame_witness :
    (dsss_transfer_stop ⟨⟨0, 0⟩, fun _ => bzero_transfer⟩ 1).sessions 2 = bzero_transfer :=
  (stop_frame ⟨⟨0, 0⟩, fun _ => bzero_transfer⟩ 1).2.2.2.1 2 (by decide)

/-- C28: when `dsss_transfer_start` reaches its loop, for every radio type, the
process-wide stop flag and the stop flag of the session are both 0; a
`dsss_transfer_stop` of that session or a `dsss_transfer_stop_all` made before
the start leaves no trace (the start proceeds exactly as without it), and the
process-wide flag is cleared for all sessions. -/
theorem start_clears_stop (w : World) (t : Nat) (now : Int) :
    (dsss_transfer_start w t now).1.globals.stop = 0
      ∧ ((dsss_transfer_start w t now).1.sessions t).stop = 0
      ∧ dsss_transfer_start (dsss_transfer_stop w t) t now = dsss_transfer_start w t now
      ∧ dsss_transfer_start (dsss_transfer_stop_all w) t now = dsss_transfer_start w t now
      ∧ (dsss_transfer_start (dsss_transfer_stop_all w) t now).1.globals.stop = 0 := by
  refine ⟨rfl, by simp [dsss_transfer_start], ?_, rfl, rfl⟩
  simp only [dsss_transfer_start, dsss_transfer_stop, if_true]
  congr 2
  funext a
  by_cases h : a = t <;> simp [h]

/-! ## Length of the FEC names -/

/-- C30: for every input string, the two strings written by `get_fec_schemes`
have at most 31 characters, so each fits with its terminating NUL in a buffer
of 32 bytes. -/
theorem get_fec_schemes_length (s : CString) :
    (get_fec_schemes s).1.length ≤ 31 ∧ (get_fec_schemes s).2.length ≤ 31
      ∧ (get_fec_schemes s).1.length + 1 ≤ 32 ∧ (get_fec_schemes s).2.length + 1 ≤ 32 := by
  have h1 : (get_fec_schemes s).1.length ≤ 31 := by
    simp only [get_fec_schemes, strlen_at, string_at]
    split_ifs with h
    · omega
    · simp [str_unknown]
  have h2 : (get_fec_schemes s).2.length ≤ 31 := by
    simp only [get_fec_schemes, strlen_at, string_at]
    split
    · split_ifs with h
      · omega
      · simp [str_unknown]
    · simp [str_none]
  omega

/-! ## The counter bytes and the integers below `2 ^ 32` -/

theorem get_counter_bytes (a0 a1 a2 a3 a4 a5 a6 a7 : Nat) (h5 : a5 < 256) (h6 : a6 < 256)
    (h7 : a7 < 256) (h4 : a4 < 256) :
    get_counter [a0, a1, a2, a3, a4, a5, a6, a7]
      = a4 * 2 ^ 24 + a5 * 2 ^ 16 + a6 * 2 ^ 8 + a7 := by
  simp only [get_counter, List.getD_eq_getElem?_getD, List.getElem?_cons_succ,
    List.getElem?_cons_zero, Option.getD_some]
  rw [be_pack _ _ _ _ h5 h6 h7]
  omega

theorem set_get_counter (h : List Nat) (hl : h.length = 8) (hb : ∀ b ∈ h, b < 256) :
    set_counter h (get_counter h) = h ∧ get_counter h < 2 ^ 32 := by
  rcases h with _ | ⟨a0, _ | ⟨a1, _ | ⟨a2, _ | ⟨a3, _ | ⟨a4, _ | ⟨a5, _ | ⟨a6, _ | ⟨a7, _ | ⟨a8, t⟩⟩⟩⟩⟩⟩⟩⟩⟩ <;>
    simp at hl
  have h4 : a4 < 256 := hb a4 (by simp)
  have h5 : a5 < 256 := hb a5 (by simp)
  have h6 : a6 < 256 := hb a6 (by simp)
  have h7 : a7 < 256 := hb a7 (by simp)
  rw [get_counter_bytes _ _ _ _ _ _ _ _ h5 h6 h7 h4, set_counter_bytes _ _ (by simp)]
  refine ⟨?_, by omega⟩
  simp only [List.take_succ_cons, List.take_zero, List.cons_append, List.nil_append,
    Nat.shiftRight_eq_div_pow, List.cons.injEq, and_true, true_and]
  omega

/-- C29: for every 8-byte header `h` (each entry a byte), writing back the
counter read from it leaves `h` unchanged; the counter read is below `2 ^ 32`;
two 8-byte headers with the same counter have the same bytes 4..7; and every
integer below `2 ^ 32` is the counter of the header obtained by `set_counter`.
So `get_counter` is a bijection between the four counter bytes and the integers
in `[0, 2 ^ 32)`. -/
theorem set_counter_get_counter (h : List Nat) (hl : h.length = 8)
    (hb : ∀ b ∈ h, b < 256) :
    set_counter h (get_counter h) = h
      ∧ get_counter h < 2 ^ 32
      ∧ (∀ h2 : List Nat, h2.length = 8 → (∀ b ∈ h2, b < 256) →
          get_counter h = get_counter h2 → h.drop 4 = h2.drop 4)
      ∧ (∀ c, c < 2 ^ 32 →
          (set_counter h c).length = 8 ∧ (∀ b ∈ set_counter h c, b < 256)
            ∧ get_counter (set_counter h c) = c) := by
  obtain ⟨e1, e2⟩ := set_get_counter h hl hb
  refine ⟨e1, e2, ?_, ?_⟩
  · intro h2 hl2 hb2 heq
    obtain ⟨f1, _⟩ := set_get_counter h2 hl2 hb2
    have d1 : (set_counter h (get_counter h)).drop 4
        = (set_counter h2 (get_counter h)).drop 4 := by
      rw [set_counter_bytes h _ hl, set_counter_bytes h2 _ hl2,
        List.drop_append_of_le_length (by simp [hl]),
        List.drop_append_of_le_length (by simp [hl2]),
        List.drop_of_length_le (by simp [hl]), List.drop_of_length_le (by simp [hl2])]
    rw [e1, heq, f1] at d1
    exact d1
  · intro c hc
    have hs := set_counter_bytes h c hl
    refine ⟨by rw [hs]; simp [hl], ?_, ?_⟩
    · intro b hbm
      rw [hs] at hbm
      simp only [List.mem_append, List.mem_cons, List.mem_singleton, List.not_mem_nil,
        or_false] at hbm
      rcases hbm with hm | rfl | rfl | rfl | rfl
      · exact hb b (List.mem_of_mem_take hm)
      all_goals exact Nat.mod_lt _ (by norm_num)
    · rcases h with _ | ⟨a0, _ | ⟨a1, _ | ⟨a2, _ | ⟨a3, _ | ⟨a4, _ | ⟨a5, _ | ⟨a6, _ | ⟨a7, _ | ⟨a8, t⟩⟩⟩⟩⟩⟩⟩⟩⟩ <;>
        simp at hl
      rw [hs]
      simp only [List.take_succ_cons, List.take_zero, List.cons_append, List.nil_append]
      rw [get_counter_bytes _ _ _ _ _ _ _ _ (Nat.mod_lt _ (by norm_num))
        (Nat.mod_lt _ (by norm_num)) (Nat.mod_lt _ (by norm_num)) (Nat.mod_lt _ (by norm_num))]
      simp only [Nat.shiftRight_eq_div_pow]
      omega

/-- Witness of C29 on the header of session `TEST` with counter bytes
`1, 2, 3, 4`. -/
theorem set_counter_get_counter_witness :
    set_counter [84, 69, 83, 84, 1, 2, 3, 4] (get_counter [84, 69, 83, 84, 1, 2, 3, 4])
      = [84, 69, 83, 84, 1, 2, 3, 4] :=
  (set_counter_get_counter [84, 69, 83, 84, 1, 2, 3, 4] (by decide) (by decide)).1

/-! ## The flush of the transmitter -/

theorem send_dummy_samples_resampler {ρ R O : Type} [LinearOrderedField ρ]
    (lib : TxLib ρ R O) (transfer : dsss_transfer_s) (delay : Nat) (last : Int)
    (st : TxState ρ R O) :
    (send_dummy_samples lib transfer delay last st).resampler
      = Nat.iterate (fun r => (lib.msresamp_crcf_execute r [(0 : Cplx ρ)]).2) delay
          st.resampler := by
  unfold send_dummy_samples
  generalize hd : delay = d
  have key : ∀ k, (for_loop k
      (fun i (st : TxState ρ R O) =>
        let zero_sample : Cplx ρ := 0
        let out := lib.msresamp_crcf_execute st.resampler [zero_sample]
        let mixed :=
          if transfer.frequency_offset ≠ 0 then lib.nco_crcf_mix_block_up st.oscillator out.1
          else (out.1, st.oscillator)
        { st with
          resampler := out.2
          oscillator := mixed.2
          events := st.events ++
            [TxEvent.send_to_radio mixed.1 (if i + 1 < d then 0 else last)] })
      st).resampler
      = Nat.iterate (fun r => (lib.msresamp_crcf_execute r [(0 : Cplx ρ)]).2) k
          st.resampler := by
    intro k
    induction k with
    | zero => rfl
    | succ k ih =>
      rw [for_loop_succ, Function.iterate_succ_apply', ← ih]
  exact key d

/-- C23: for every `delay >= 1`, `send_dummy_samples` runs the resampler exactly
`delay` times, each time on one zero sample, and makes exactly `delay` writes to
the radio; every write but the final one has `last = 0`, and the final one
carries the flag given by the caller. With `last = 1`, as in the flush at the
end of `send_frames`, exactly one write is marked and it is the final one. -/
theorem send_dummy_samples_flush {ρ R O : Type} [LinearOrderedField ρ]
    (lib : TxLib ρ R O) (transfer : dsss_transfer_s) (delay : Nat) (last : Int)
    (st : TxState ρ R O) (hd : 1 ≤ delay) :
    (send_dummy_samples lib transfer delay last st).resampler
        = Nat.iterate (fun r => (lib.msresamp_crcf_execute r [(0 : Cplx ρ)]).2) delay
            st.resampler
      ∧ ∃ flush : List (TxEvent ρ),
          (send_dummy_samples lib transfer delay last st).events = st.events ++ flush
          ∧ flush.length = delay
          ∧ (∀ k, k + 1 < delay → ∃ samples, flush[k]? = some (TxEvent.send_to_radio samples 0))
          ∧ ∃ samples, flush[delay - 1]? = some (TxEvent.send_to_radio samples last) := by
  refine ⟨send_dummy_samples_resampler lib transfer delay last st, ?_⟩
  obtain ⟨flush, he, hl, hf⟩ := send_dummy_samples_events lib transfer delay last st
  refine ⟨flush, he, hl, ?_, ?_⟩
  · intro k hk
    obtain ⟨smp, hs⟩ := hf k (by omega)
    exact ⟨smp, by rw [hs, if_pos hk]⟩
  · obtain ⟨smp, hs⟩ := hf (delay - 1) (by omega)
    have hn : ¬ (delay - 1 + 1 < delay) := by omega
    exact ⟨smp, by rw [hs, if_neg hn]⟩

/-- Witness of C23: a flush of three samples with the flag set. -/
theorem send_dummy_samples_flush_witness :
    ∃ flush : List (TxEvent ℚ),
      (send_dummy_samples sample_tx_lib bzero_transfer 3 1
          ⟨[], 0, 0, 0, []⟩).events = [] ++ flush
      ∧ flush.length = 3
      ∧ (∀ k, k + 1 < 3 → ∃ samples, flush[k]? = some (TxEvent.send_to_radio samples 0))
      ∧ ∃ samples, flush[3 - 1]? = some (TxEvent.send_to_radio samples 1) :=
  (send_dummy_samples_flush sample_tx_lib bzero_transfer 3 1 ⟨[], 0, 0, 0, []⟩
    (by decide)).2

/-! ## The padding of a completed frame -/

section padding
variable {ρ : Type} [LinearOrderedField ρ]

theorem trim_padding_zero_above (fs : List (Cplx ρ)) (n : Nat) :
    ∀ i, trim_padding fs n ≤ i → i < n → fs.getD i 0 = 0 := by
  induction n with
  | zero => intro i _ hi; omega
  | succ n ih =>
    intro i h1 h2
    simp only [trim_padding] at h1
    split_ifs at h1 with hz
    · by_cases hin : i = n
      · rw [hin]; exact hz
      · exact ih i h1 (by omega)
    · omega

theorem trim_padding_last (fs : List (Cplx ρ)) (n : Nat) :
    trim_padding fs n = 0 ∨ fs.getD (trim_padding fs n - 1) 0 ≠ 0 := by
  induction n with
  | zero => left; rfl
  | succ n ih =>
    simp only [trim_padding]
    split_ifs with hz
    · exact ih
    · right
      simpa using hz

end padding

theorem resampler_input_map {ρ : Type} [LinearOrderedField ρ] (cabsf : Cplx ρ → ρ)
    (fss : Nat) (fc : Int) (fs : List (Cplx ρ)) (hlen : fss ≤ fs.length) :
    resampler_input cabsf fss fc fs
      = (fs.take (forwarded_count fss fc fs)).map
          (fun x => x * Cplx.ofReal (3 / 4 / maximum_amplitude cabsf fs
            (forwarded_count fss fc fs))) := by
  simp only [resampler_input]
  exact mulscalar_take _ _ _ (le_trans (forwarded_count_le fss fc fs) hlen)

/-- C24: for every call of `send_block`, the loop body of `send_frames`, on a block
written by `dsssframegen_write_samples` into a buffer of at least
`frame_samples_size` samples: when the frame is not complete the forwarded count
`n` is `frame_samples_size`; when it is complete `n` is the least index from
which every sample of the block is zero (so `n = 0` or sample `n - 1` is not
zero); in both cases `msresamp_crcf_execute` is called on samples `0 .. n - 1` in
their order, each multiplied by the same scalar, and its output (mixed up when
`frequency_offset` is not zero) is what is sent to the radio. -/
theorem send_block_forwarded_samples {ρ R O : Type} [LinearOrderedField ρ]
    (lib : TxLib ρ R O) (transfer : dsss_transfer_s)
    (frame_samples_size : Nat) (frame_complete : Int) (frame_samples : List (Cplx ρ))
    (st : TxState ρ R O)
    (hlen : frame_samples_size ≤ frame_samples.length) :
    (frame_complete = 0 →
        forwarded_count frame_samples_size frame_complete frame_samples = frame_samples_size)
      ∧ (frame_complete ≠ 0 →
          forwarded_count frame_samples_size frame_complete frame_samples ≤ frame_samples_size
          ∧ (∀ i, forwarded_count frame_samples_size frame_complete frame_samples ≤ i →
              i < frame_samples_size → frame_samples.getD i 0 = 0)
          ∧ (forwarded_count frame_samples_size frame_complete frame_samples = 0
              ∨ frame_samples.getD
                  (forwarded_count frame_samples_size frame_complete frame_samples - 1) 0 ≠ 0)
          ∧ (∀ m, (∀ i, m ≤ i → i < frame_samples_size → frame_samples.getD i 0 = 0) →
              forwarded_count frame_samples_size frame_complete frame_samples ≤ m))
      ∧ (send_block lib transfer frame_samples_size frame_complete frame_samples st).resampler
          = (lib.msresamp_crcf_execute st.resampler
              ((frame_samples.take
                (forwarded_count frame_samples_size frame_complete frame_samples)).map
                (fun x => x * Cplx.ofReal (3 / 4 / maximum_amplitude lib.cabsf frame_samples
                  (forwarded_count frame_samples_size frame_complete frame_samples))))).2
      ∧ (send_block lib transfer frame_samples_size frame_complete frame_samples st).events
          = st.events ++ [TxEvent.send_to_radio
              (if transfer.frequency_offset ≠ 0 then
                (lib.nco_crcf_mix_block_up st.oscillator
                  (lib.msresamp_crcf_execute st.resampler
                    ((frame_samples.take
                      (forwarded_count frame_samples_size frame_complete frame_samples)).map
                      (fun x => x * Cplx.ofReal (3 / 4 / maximum_amplitude lib.cabsf
                        frame_samples
                        (forwarded_count frame_samples_size frame_complete
                          frame_samples))))).1).1
              else (lib.msresamp_crcf_execute st.resampler
                ((frame_samples.take
                  (forwarded_count frame_samples_size frame_complete frame_samples)).map
                  (fun x => x * Cplx.ofReal (3 / 4 / maximum_amplitude lib.cabsf
                    frame_samples
                    (forwarded_count frame_samples_size frame_complete
                      frame_samples))))).1) 0] := by
  refine ⟨fun h => by simp [forwarded_count, h], ?_, ?_, ?_⟩
  · intro h
    have e : forwarded_count frame_samples_size frame_complete frame_samples
        = trim_padding frame_samples frame_samples_size := by
      simp [forwarded_count, h]
    rw [e]
    refine ⟨trim_padding_le _ _, trim_padding_zero_above _ _, trim_padding_last _ _, ?_⟩
    intro m hm
    by_contra hlt
    rcases trim_padding_last frame_samples frame_samples_size with h0 | hne
    · omega
    · have hle := trim_padding_le frame_samples frame_samples_size
      exact hne (hm _ (by omega) (by omega))
  · rw [← resampler_input_map lib.cabsf _ _ _ hlen]
    rfl
  · rw [← resampler_input_map lib.cabsf _ _ _ hlen]
    by_cases h : transfer.frequency_offset = 0 <;>
      simp [send_block, resampler_input, forwarded_count, h]

/-- Witness of C24: a completed frame whose block of four samples ends with two
zero samples; two samples are forwarded, scaled by `3/4`, and sent to the
radio. -/
theorem send_block_forwarded_samples_witness :
    forwarded_count 4 1 ([⟨1, 0⟩, ⟨0, 2⟩, ⟨0, 0⟩, ⟨0, 0⟩] : List (Cplx ℚ)) = 2
      ∧ (send_block sample_tx_lib bzero_transfer 4 1 [⟨1, 0⟩, ⟨0, 2⟩, ⟨0, 0⟩, ⟨0, 0⟩]
          ⟨[], 0, 0, 0, []⟩).events
        = [TxEvent.send_to_radio [⟨3 / 4, 0⟩, ⟨0, 3 / 2⟩] 0] := by
  refine ⟨by decide, ?_⟩
  have w := (send_block_forwarded_samples sample_tx_lib bzero_transfer 4 1
    [⟨1, 0⟩, ⟨0, 2⟩, ⟨0, 0⟩, ⟨0, 0⟩] ⟨[], 0, 0, 0, []⟩ (by decide)).2.2.2
  have e : (([⟨1, 0⟩, ⟨0, 2⟩, ⟨0, 0⟩, ⟨0, 0⟩] : List (Cplx ℚ)).take
      (forwarded_count 4 1 ([⟨1, 0⟩, ⟨0, 2⟩, ⟨0, 0⟩, ⟨0, 0⟩] : List (Cplx ℚ)))).map
      (fun x => x * Cplx.ofReal (3 / 4 / maximum_amplitude sample_tx_lib.cabsf
        [⟨1, 0⟩, ⟨0, 2⟩, ⟨0, 0⟩, ⟨0, 0⟩]
        (forwarded_count 4 1 ([⟨1, 0⟩, ⟨0, 2⟩, ⟨0, 0⟩, ⟨0, 0⟩] : List (Cplx ℚ)))))
      = [⟨3 / 4, 0⟩, ⟨0, 3 / 2⟩] := by
    have hc : forwarded_count 4 1 ([⟨1, 0⟩, ⟨0, 2⟩, ⟨0, 0⟩, ⟨0, 0⟩] : List (Cplx ℚ)) = 2 := by
      decide
    have hm : maximum_amplitude sample_tx_lib.cabsf
        ([⟨1, 0⟩, ⟨0, 2⟩, ⟨0, 0⟩, ⟨0, 0⟩] : List (Cplx ℚ)) 2 = 1 := by
      simp [maximum_amplitude, for_loop, List.range_succ, sample_tx_lib]
    rw [hc, hm]
    simp only [List.take_succ_cons, List.take_zero, List.map_cons, List.map_nil, Cplx.mul_def,
      Cplx.ofReal]
    norm_num
  rw [e] at w
  exact w

/-! ## Bound on the normalised samples -/

section bound
variable {ρ : Type} [LinearOrderedField ρ]

theorem foldl_max_bounds (cabsf : Cplx ρ → ρ) (l : List (Cplx ρ)) :
    ∀ a : ρ, a ≤ l.foldl (fun m x => max m (cabsf x)) a
      ∧ ∀ x ∈ l, cabsf x ≤ l.foldl (fun m x => max m (cabsf x)) a := by
  induction l with
  | nil => intro a; exact ⟨le_refl a, fun x hx => absurd hx (List.not_mem_nil x)⟩
  | cons y t ih =>
    intro a
    obtain ⟨h1, h2⟩ := ih (max a (cabsf y))
    simp only [List.foldl_cons]
    refine ⟨le_trans (le_max_left _ _) h1, ?_⟩
    intro x hx
    rcases List.mem_cons.mp hx with rfl | hxt
    · exact le_trans (le_max_right _ _) h1
    · exact h2 x hxt

theorem le_peak (cabsf : Cplx ρ → ρ) (l : List (Cplx ρ)) (x : Cplx ρ) (hx : x ∈ l) :
    cabsf x ≤ peak cabsf l :=
  (foldl_max_bounds cabsf l 0).2 x hx

theorem peak_nonneg (cabsf : Cplx ρ → ρ) (l : List (Cplx ρ)) : 0 ≤ peak cabsf l :=
  (foldl_max_bounds cabsf l 0).1

theorem scaled_bound (cabsf : Cplx ρ → ρ)
    (h0 : ∀ x : Cplx ρ, 0 ≤ cabsf x)
    (hmul : ∀ (x : Cplx ρ) (c : ρ), 0 ≤ c → cabsf (x * Cplx.ofReal c) = cabsf x * c)
    (l : List (Cplx ρ)) (x : Cplx ρ) (hx : x ∈ l) :
    0 ≤ 3 / 4 / max 1 (peak cabsf l)
      ∧ 3 / 4 / max 1 (peak cabsf l) ≤ 3 / 4
      ∧ cabsf (x * Cplx.ofReal (3 / 4 / max 1 (peak cabsf l))) ≤ cabsf x
      ∧ cabsf (x * Cplx.ofReal (3 / 4 / max 1 (peak cabsf l))) ≤ 3 / 4 := by
  have hM : (1 : ρ) ≤ max 1 (peak cabsf l) := le_max_left _ _
  have hMpos : (0 : ρ) < max 1 (peak cabsf l) := lt_of_lt_of_le zero_lt_one hM
  have hc0 : (0 : ρ) ≤ 3 / 4 / max 1 (peak cabsf l) := div_nonneg (by norm_num) (le_of_lt hMpos)
  have hc1 : 3 / 4 / max 1 (peak cabsf l) ≤ (3 / 4 : ρ) :=
    div_le_self (by norm_num) hM
  have hxP : cabsf x ≤ max 1 (peak cabsf l) :=
    le_trans (le_peak cabsf l x hx) (le_max_right _ _)
  refine ⟨hc0, hc1, ?_, ?_⟩
  · rw [hmul x _ hc0]
    calc cabsf x * (3 / 4 / max 1 (peak cabsf l))
        ≤ cabsf x * (3 / 4) := mul_le_mul_of_nonneg_left hc1 (h0 x)
      _ ≤ cabsf x * 1 := mul_le_mul_of_nonneg_left (by norm_num) (h0 x)
      _ = cabsf x := mul_one _
  · rw [hmul x _ hc0]
    calc cabsf x * (3 / 4 / max 1 (peak cabsf l))
        ≤ max 1 (peak cabsf l) * (3 / 4 / max 1 (peak cabsf l)) :=
          mul_le_mul_of_nonneg_right hxP hc0
      _ = 3 / 4 := by
          field_simp
          ring

end bound

/-- C27: for every call of `send_block`, the loop body of `send_frames` (on a
buffer of at least `frame_samples_size` samples), `msresamp_crcf_execute` is
called on the block `resampler_input` and its output (mixed up when
`frequency_offset` is not zero) is sent to the radio; with `P` the peak
magnitude of the forwarded samples, the loop ends with
`maximum_amplitude = max(1, P)`; the scale factor `0.75 / max(1, P)` lies between
0 and 0.75, so no sample is amplified, and every sample given to the resampler
has magnitude at most 0.75. The magnitude `cabsf` of the library is any
non-negative function with `cabsf (x * c) = cabsf x * c` for real `c >= 0`, as
the modulus over the reals. -/
theorem send_block_normalisation_bound {ρ R O : Type} [LinearOrderedField ρ]
    (lib : TxLib ρ R O)
    (h0 : ∀ x : Cplx ρ, 0 ≤ lib.cabsf x)
    (hmul : ∀ (x : Cplx ρ) (c : ρ), 0 ≤ c → lib.cabsf (x * Cplx.ofReal c) = lib.cabsf x * c)
    (transfer : dsss_transfer_s)
    (frame_samples_size : Nat) (frame_complete : Int) (frame_samples : List (Cplx ρ))
    (st : TxState ρ R O)
    (hlen : frame_samples_size ≤ frame_samples.length) :
    (send_block lib transfer frame_samples_size frame_complete frame_samples st).resampler
        = (lib.msresamp_crcf_execute st.resampler
            (resampler_input lib.cabsf frame_samples_size frame_complete frame_samples)).2
      ∧ (send_block lib transfer frame_samples_size frame_complete frame_samples st).events
        = st.events ++ [TxEvent.send_to_radio
            (if transfer.frequency_offset ≠ 0 then
              (lib.nco_crcf_mix_block_up st.oscillator
                (lib.msresamp_crcf_execute st.resampler
                  (resampler_input lib.cabsf frame_samples_size frame_complete
                    frame_samples)).1).1
            else (lib.msresamp_crcf_execute st.resampler
              (resampler_input lib.cabsf frame_samples_size frame_complete
                frame_samples)).1) 0]
      ∧ resampler_input lib.cabsf frame_samples_size frame_complete frame_samples
        = (frame_samples.take
            (forwarded_count frame_samples_size frame_complete frame_samples)).map
            (fun x => x * Cplx.ofReal (3 / 4 / maximum_amplitude lib.cabsf frame_samples
              (forwarded_count frame_samples_size frame_complete frame_samples)))
      ∧ maximum_amplitude lib.cabsf frame_samples
        (forwarded_count frame_samples_size frame_complete frame_samples)
        = max 1 (peak lib.cabsf (frame_samples.take
            (forwarded_count frame_samples_size frame_complete frame_samples)))
      ∧ 0 ≤ 3 / 4 / maximum_amplitude lib.cabsf frame_samples
          (forwarded_count frame_samples_size frame_complete frame_samples)
      ∧ 3 / 4 / maximum_amplitude lib.cabsf frame_samples
          (forwarded_count frame_samples_size frame_complete frame_samples) ≤ 3 / 4
      ∧ (∀ x ∈ frame_samples.take
            (forwarded_count frame_samples_size frame_complete frame_samples),
          lib.cabsf (x * Cplx.ofReal (3 / 4 / maximum_amplitude lib.cabsf frame_samples
            (forwarded_count frame_samples_size frame_complete frame_samples)))
            ≤ lib.cabsf x)
      ∧ (∀ y ∈ resampler_input lib.cabsf frame_samples_size frame_complete frame_samples,
          lib.cabsf y ≤ 3 / 4) := by
  have hn : forwarded_count frame_samples_size frame_complete frame_samples
      ≤ frame_samples.length :=
    le_trans (forwarded_count_le frame_samples_size frame_complete frame_samples) hlen
  have hmax := maximum_amplitude_eq lib.cabsf frame_samples _ hn
  have hM : (1 : ρ) ≤ max 1 (peak lib.cabsf (frame_samples.take
      (forwarded_count frame_samples_size frame_complete frame_samples))) := le_max_left _ _
  refine ⟨rfl, (by
    by_cases h : transfer.frequency_offset = 0 <;>
      simp [send_block, resampler_input, forwarded_count, h]),
    resampler_input_map lib.cabsf _ _ _ hlen, hmax, ?_, ?_, ?_, ?_⟩
  · rw [hmax]
    exact div_nonneg (by norm_num) (le_trans zero_le_one hM)
  · rw [hmax]
    exact div_le_self (by norm_num) hM
  · intro x hx
    rw [hmax]
    exact (scaled_bound lib.cabsf h0 hmul _ x hx).2.2.1
  · intro y hy
    simp only [resampler_input] at hy
    rw [mulscalar_take _ _ _ hn, hmax] at hy
    obtain ⟨x, hx, rfl⟩ := List.mem_map.mp hy
    exact (scaled_bound lib.cabsf h0 hmul _ x hx).2.2.2

/-- Witness of C27 over the reals with the true modulus, on the block
`[3 + 4i, 0]` of a completed frame handed to `send_block`: the block sent on is
`resampler_input`, the loop ends with the maximum of 1 and the peak, and the
scale factor lies between 0 and 0.75. -/
theorem send_block_normalisation_bound_witness :
    (send_block (transparent_tx_lib (fun c : Cplx ℝ => Real.sqrt (c.re * c.re + c.im * c.im)))
        bzero_transfer 2 1 [⟨3, 4⟩, ⟨0, 0⟩] ⟨[], 0, 0, 0, []⟩).events
      = [TxEvent.send_to_radio
          (resampler_input (fun c : Cplx ℝ => Real.sqrt (c.re * c.re + c.im * c.im)) 2 1
            [⟨3, 4⟩, ⟨0, 0⟩]) 0]
      ∧ (∀ y ∈ resampler_input (fun c : Cplx ℝ => Real.sqrt (c.re * c.re + c.im * c.im)) 2 1
            [⟨3, 4⟩, ⟨0, 0⟩],
          Real.sqrt (y.re * y.re + y.im * y.im) ≤ 3 / 4)
      ∧ 0 ≤ 3 / 4 / maximum_amplitude
          (fun c : Cplx ℝ => Real.sqrt (c.re * c.re + c.im * c.im))
          [⟨3, 4⟩, ⟨0, 0⟩] (forwarded_count 2 1 ([⟨3, 4⟩, ⟨0, 0⟩] : List (Cplx ℝ)))
      ∧ 3 / 4 / maximum_amplitude
          (fun c : Cplx ℝ => Real.sqrt (c.re * c.re + c.im * c.im))
          [⟨3, 4⟩, ⟨0, 0⟩] (forwarded_count 2 1 ([⟨3, 4⟩, ⟨0, 0⟩] : List (Cplx ℝ)))
        ≤ 3 / 4 :=
  have w := send_block_normalisation_bound
    (transparent_tx_lib (fun c : Cplx ℝ => Real.sqrt (c.re * c.re + c.im * c.im)))
    (fun _ => Real.sqrt_nonneg _) real_modulus_scaled bzero_transfer 2 1 [⟨3, 4⟩, ⟨0, 0⟩]
    ⟨[], 0, 0, 0, []⟩ (by simp)
  ⟨w.2.1, w.2.2.2.2.2.2.2, w.2.2.2.2.1, w.2.2.2.2.2.1⟩

/-! ## What a created session holds -/

theorem open_radio_session (env : CreateEnv) (radio_driver : CString) (emit : Nat)
    (gain : CString) (tr t : dsss_transfer_s)
    (h : open_radio env radio_driver emit gain tr = CreateResult.session t) :
    ∃ d s, t = { tr with radio_device := d, radio_stream := s } := by
  unfold open_radio at h
  split at h
  · simp only [CreateResult.session.injEq] at h
    exact ⟨tr.radio_device, tr.radio_stream, h.symm⟩
  · simp only at h
    split_ifs at h <;>
      (simp only [CreateResult.session.injEq] at h; exact ⟨_, tr.radio_stream, h.symm⟩)
  · simp only at h
    split_ifs at h
    simp only [CreateResult.session.injEq] at h
    exact ⟨_, _, h.symm⟩

theorem audio_setup_some (env : CreateEnv) (audio : Nat) (tr tr2 : dsss_transfer_s)
    (h : audio_setup env audio tr = some tr2) :
    (audio = 0 → tr2 = { tr with audio_converter := none })
      ∧ (audio ≠ 0 →
          (tr.radio_type = .IO_TYPE ∨ tr.radio_type = .FILENAME)
          ∧ tr2 = { tr with
              audio_converter := some env.firhilbf_create
              sample_rate := tr.sample_rate / 2
              frequency_offset :=
                to_long ((tr.frequency : Int) - ((tr.sample_rate / 2 / 2 : Nat) : Int))
              frequency := 0 }) := by
  unfold audio_setup at h
  by_cases ha : audio = 0
  · simp only [ha, ne_eq, not_true_eq_false, if_false, Option.some.injEq] at h
    exact ⟨fun _ => h.symm, fun hn => absurd ha hn⟩
  · simp only [ha, ne_eq, not_false_eq_true, if_true] at h
    split_ifs at h with hr
    simp only [Option.some.injEq] at h
    exact ⟨fun hz => absurd hz ha, fun _ => ⟨hr, h.symm⟩⟩

theorem create_session_fields (env : CreateEnv) (radio_driver : CString) (emit : Nat)
    (data_callback callback_context : Nat) (sample_rate bit_rate frequency : Nat)
    (frequency_offset : Int) (gain : CString) (ppm : Nat → Nat) (spreading_factor : Nat)
    (inner_fec outer_fec id : CString) (dump : Option CString) (timeout audio : Nat)
    (t : dsss_transfer_s)
    (h : dsss_transfer_create_callback env radio_driver emit data_callback callback_context
      sample_rate bit_rate frequency frequency_offset gain ppm spreading_factor inner_fec
      outer_fec id dump timeout audio = CreateResult.session t) :
    sample_rate ≠ 0 ∧ frequency ≠ 0 ∧ bit_rate ≠ 0 ∧ 2 ≤ spreading_factor ∧ id.length ≤ 4
      ∧ t.id = strcpy_id id ∧ t.bit_rate = bit_rate ∧ t.spreading_factor = spreading_factor
      ∧ (audio = 0 → t.sample_rate = ppm sample_rate ∧ t.frequency = ppm frequency
          ∧ t.frequency_offset = frequency_offset)
      ∧ (audio ≠ 0 → t.sample_rate = ppm sample_rate / 2 ∧ t.frequency = 0
          ∧ t.frequency_offset
              = to_long ((ppm frequency : Int) - ((ppm sample_rate / 2 / 2 : Nat) : Int))
          ∧ (t.radio_type = .IO_TYPE ∨ t.radio_type = .FILENAME)) := by
  unfold dsss_transfer_create_callback at h
  by_cases hm : env.malloc_ok = false
  · simp [hm] at h
  by_cases hsr : sample_rate = 0
  · simp [hm, hsr] at h
  by_cases hf : frequency = 0
  · simp [hm, hsr, hf] at h
  simp only [eq_false hm, eq_false hsr, eq_false hf, if_false] at h
  split at h
  · cases h
  · rename_i tr2 haud
    by_cases hbr : bit_rate = 0
    · simp [hbr] at h
    by_cases hsf : spreading_factor ≥ 2
    swap
    · simp [hbr, hsf] at h
    by_cases hin : env.liquid_getopt_str2fec inner_fec = LIQUID_FEC_UNKNOWN
    · simp [hbr, hsf, hin] at h
    by_cases hout : env.liquid_getopt_str2fec outer_fec = LIQUID_FEC_UNKNOWN
    · simp [hbr, hsf, hin, hout] at h
    by_cases hid : id.length ≤ 4
    swap
    · simp [hbr, hsf, hin, hout, hid] at h
    simp only [hbr, hsf, hin, hout, hid, if_false, not_true_eq_false, not_false_eq_true] at h
    split_ifs at h with hd
    obtain ⟨d, s, ht⟩ := open_radio_session _ _ _ _ _ _ h
    obtain ⟨a0, a1⟩ := audio_setup_some _ _ _ _ haud
    refine ⟨hsr, hf, hbr, hsf, hid, by rw [ht], by rw [ht], by rw [ht], ?_, ?_⟩
    · intro ha
      rw [ht, a0 ha]
      exact ⟨rfl, rfl, rfl⟩
    · intro ha
      obtain ⟨hr, e⟩ := a1 ha
      rw [ht, e]
      exact ⟨rfl, rfl, rfl, hr⟩

/-! ## The id filter between two sessions -/

theorem assembled_headers_closed {ρ R O : Type} [LinearOrderedField ρ] (lib : TxLib ρ R O)
    (tenth : Nat → ℚ) (stack : List Nat) (delay frame_samples_size : Nat)
    (transfer : dsss_transfer_s) (steps : List (TxStep ρ)) (header : List Nat)
    (hh : header ∈ assembled_headers
      (send_frames lib tenth stack delay frame_samples_size transfer steps)) :
    ∃ k, header = first4 transfer.id ++ big_endian (k % 2 ^ 32) := by
  have h0 : set_counter (first4 transfer.id ++ (malloc_buf stack 8).drop 4) 0
      = first4 transfer.id ++ big_endian (0 % 2 ^ 32) :=
    set_counter_header _ _ _ (first4_length _) (by simp [malloc_buf])
  have key := send_frames_loop_headers lib transfer (payload_size tenth transfer.bit_rate)
    delay frame_samples_size steps
    { header := set_counter (first4 transfer.id ++ (malloc_buf stack 8).drop 4) 0
      counter := 0, resampler := lib.resampler, oscillator := lib.oscillator, events := [] }
    0 h0 rfl
  simp only [assembled_headers, List.nil_append, Nat.zero_add] at key
  simp only [send_frames] at hh
  split_ifs at hh
  · rw [(send_dummy_samples_keeps lib transfer delay 1 _).2.2, key] at hh
    obtain ⟨k, _, hk⟩ := List.mem_map.mp hh
    exact ⟨k, hk.symm⟩
  · rw [key] at hh
    obtain ⟨k, _, hk⟩ := List.mem_map.mp hh
    exact ⟨k, hk.symm⟩

theorem first4_append (x y : List Nat) : first4 (first4 x ++ y) = first4 x := by
  simp [first4, List.range_succ]

theorem padded_id (A : CString) (hl : A.length ≤ 4) (h0 : ∀ b ∈ A, b ≠ 0) :
    first4 (strcpy_id A) = A ++ List.replicate (4 - A.length) 0
      ∧ (first4 (strcpy_id A)).takeWhile (fun b => b ≠ 0) = A := by
  rcases A with _ | ⟨a, _ | ⟨b, _ | ⟨c, _ | ⟨d, _ | ⟨e, t⟩⟩⟩⟩⟩
  · exact ⟨rfl, rfl⟩
  · have ha : a ≠ 0 := h0 a (by simp)
    refine ⟨rfl, ?_⟩
    show List.takeWhile _ [a, 0, 0, 0] = [a]
    rw [List.takeWhile_cons_of_pos (by simpa using ha), List.takeWhile_cons_of_neg (by simp)]
  · have ha : a ≠ 0 := h0 a (by simp)
    have hb : b ≠ 0 := h0 b (by simp)
    refine ⟨rfl, ?_⟩
    show List.takeWhile _ [a, b, 0, 0] = [a, b]
    rw [List.takeWhile_cons_of_pos (by simpa using ha),
      List.takeWhile_cons_of_pos (by simpa using hb), List.takeWhile_cons_of_neg (by simp)]
  · have ha : a ≠ 0 := h0 a (by simp)
    have hb : b ≠ 0 := h0 b (by simp)
    have hc : c ≠ 0 := h0 c (by simp)
    refine ⟨rfl, ?_⟩
    show List.takeWhile _ [a, b, c, 0] = [a, b, c]
    rw [List.takeWhile_cons_of_pos (by simpa using ha),
      List.takeWhile_cons_of_pos (by simpa using hb),
      List.takeWhile_cons_of_pos (by simpa using hc), List.takeWhile_cons_of_neg (by simp)]
  · have ha : a ≠ 0 := h0 a (by simp)
    have hb : b ≠ 0 := h0 b (by simp)
    have hc : c ≠ 0 := h0 c (by simp)
    have hd : d ≠ 0 := h0 d (by simp)
    refine ⟨rfl, ?_⟩
    show List.takeWhile _ [a, b, c, d] = [a, b, c, d]
    rw [List.takeWhile_cons_of_pos (by simpa using ha),
      List.takeWhile_cons_of_pos (by simpa using hb),
      List.takeWhile_cons_of_pos (by simpa using hc),
      List.takeWhile_cons_of_pos (by simpa using hd), List.takeWhile_nil]
  · simp at hl

/-- C21: let a transmit session be created with the id `A` and a receive session
with the id `B` (C strings, without NUL bytes; creation succeeds only for ids of
at most 4 bytes). Every header that `send_frames` of the first session gives to
the frame generator starts with `A` padded with zero bytes to 4 bytes; a frame
with such a header, received with `header_valid` and `payload_valid` non-zero,
is passed to the data callback of the second session if and only if `A = B`,
the comparison being made on the 4 padded bytes. -/
theorem id_filter {ρ R O : Type} [LinearOrderedField ρ]
    (envA envB : CreateEnv) (radio_driverA radio_driverB : CString) (emitA emitB : Nat)
    (data_callbackA callback_contextA data_callbackB callback_contextB : Nat)
    (sample_rateA bit_rateA frequencyA sample_rateB bit_rateB frequencyB : Nat)
    (frequency_offsetA frequency_offsetB : Int) (gainA gainB : CString)
    (ppmA ppmB : Nat → Nat) (spreading_factorA spreading_factorB : Nat)
    (inner_fecA outer_fecA inner_fecB outer_fecB A B : CString)
    (dumpA dumpB : Option CString) (timeoutA audioA timeoutB audioB : Nat)
    (tA tB : dsss_transfer_s)
    (hA0 : ∀ b ∈ A, b ≠ 0) (hB0 : ∀ b ∈ B, b ≠ 0)
    (hcA : dsss_transfer_create_callback envA radio_driverA emitA data_callbackA
      callback_contextA sample_rateA bit_rateA frequencyA frequency_offsetA gainA ppmA
      spreading_factorA inner_fecA outer_fecA A dumpA timeoutA audioA
      = CreateResult.session tA)
    (hcB : dsss_transfer_create_callback envB radio_driverB emitB data_callbackB
      callback_contextB sample_rateB bit_rateB frequencyB frequency_offsetB gainB ppmB
      spreading_factorB inner_fecB outer_fecB B dumpB timeoutB audioB
      = CreateResult.session tB)
    (lib : TxLib ρ R O) (tenth : Nat → ℚ) (stack : List Nat)
    (delay frame_samples_size : Nat) (steps : List (TxStep ρ)) (header : List Nat)
    (hh : header ∈ assembled_headers
      (send_frames lib tenth stack delay frame_samples_size tA steps))
    (g : Globals) (now : Int) (header_valid payload_valid : Int) (payload : List Nat)
    (payload_size : Nat) (hhv : header_valid ≠ 0) (hpv : payload_valid ≠ 0) :
    first4 header = A ++ List.replicate (4 - A.length) 0
      ∧ first4 tB.id = B ++ List.replicate (4 - B.length) 0
      ∧ (callback_calls (frame_received g now header header_valid payload payload_size
            payload_valid tB).events
          = [(tB.data_callback, tB.callback_context, payload, payload_size)] ↔ A = B)
      ∧ (callback_calls (frame_received g now header header_valid payload payload_size
            payload_valid tB).events = [] ↔ A ≠ B) := by
  have fA := create_session_fields _ _ _ _ _ _ _ _ _ _ _ _ _ _ _ _ _ _ _ hcA
  have fB := create_session_fields _ _ _ _ _ _ _ _ _ _ _ _ _ _ _ _ _ _ _ hcB
  obtain ⟨k, hk⟩ := assembled_headers_closed lib tenth stack delay frame_samples_size tA steps
    header hh
  have hA := padded_id A fA.2.2.2.2.1 hA0
  have hB := padded_id B fB.2.2.2.2.1 hB0
  have h1 : first4 header = first4 (strcpy_id A) := by
    rw [hk, first4_append, fA.2.2.2.2.2.1]
  have h2 : first4 tB.id = first4 (strcpy_id B) := by rw [fB.2.2.2.2.2.1]
  have hiff : first4 header = first4 tB.id ↔ A = B := by
    rw [h1, h2]
    constructor
    · intro e
      rw [← hA.2, ← hB.2, e]
    · intro e
      rw [e]
  rw [frame_received_calls]
  refine ⟨h1.trans hA.1, h2.trans hB.1, ?_, ?_⟩
  · by_cases e : A = B
    · simp [hhv, hpv, hiff.mpr e, e]
    · have : ¬ first4 header = first4 tB.id := fun h => e (hiff.mp h)
      simp [hhv, hpv, this, e]
  · by_cases e : A = B
    · simp [hhv, hpv, hiff.mpr e, e]
    · have : ¬ first4 header = first4 tB.id := fun h => e (hiff.mp h)
      simp [hhv, hpv, this, e]

/-- Witness of C21: a transmitter and a receiver both created with the id `AB`;
the first frame of the transmitter is delivered. -/
theorem id_filter_witness :
    callback_calls (frame_received ⟨0, 0⟩ 100 [65, 66, 0, 0, 0, 0, 0, 0] 1 [1, 2, 3] 3 1
        (sample_session 0 [65, 66])).events
      = [((sample_session 0 [65, 66]).data_callback,
          (sample_session 0 [65, 66]).callback_context, [1, 2, 3], 3)]
    ↔ ([65, 66] : CString) = [65, 66] :=
  (id_filter sample_env sample_env str_io str_io 1 0 0 0 0 0 2000000 100 434000000
    2000000 100 434000000 0 0 [48] [48] id id 64 64 str_h128 str_none str_h128 str_none
    [65, 66] [65, 66] none none 0 0 0 0 (sample_session 1 [65, 66]) (sample_session 0 [65, 66])
    (by decide) (by decide) (by decide) (by decide)
    sample_tx_lib tenth_exact [] 2 4
    [TxStep.data 3 [1, 2, 3] [] [⟨1, 0⟩, ⟨0, 0⟩, ⟨0, 0⟩, ⟨0, 0⟩]] [65, 66, 0, 0, 0, 0, 0, 0]
    (by decide) ⟨0, 0⟩ 100 1 1 [1, 2, 3] 3 (by decide) (by decide)).2.2.1

/-! ## Audio sessions -/

/-- C25 (counterexample): with audio set, the IO radio, no clock correction, a
sample rate of 2 S/s and a frequency of `2 ^ 63` Hz, creation succeeds; the
stored sample rate is 1, and the stored frequency offset is `-2 ^ 63`, not the
frequency minus half of the stored sample rate, which is `2 ^ 63`. -/
theorem audio_offset_wraps :
    ∃ t, dsss_transfer_create_callback sample_env str_io 0 0 0 2 100 9223372036854775808 0
          [48] id 64 str_h128 str_none [] none 0 1 = CreateResult.session t
      ∧ t.sample_rate = 1
      ∧ t.frequency_offset = -9223372036854775808
      ∧ t.frequency_offset
          ≠ ((id 9223372036854775808 : Nat) : Int) - ((t.sample_rate / 2 : Nat) : Int) :=
  ⟨_, rfl, rfl, rfl, by decide⟩

/-- C25 (amended): when `dsss_transfer_create_callback` succeeds with audio set,
the radio is IO or FILENAME, the stored sample rate is half (integer division)
of the ppm-corrected sample rate, the stored frequency is 0, and the stored
frequency offset is the ppm-corrected frequency minus half of the stored sample
rate, converted to `long int`; it is that difference itself whenever the
difference is below `2 ^ 63` (the stored sample rate being an `unsigned long`). The `frequency_offset` argument has no effect on
the result. -/
theorem audio_session (env : CreateEnv) (radio_driver : CString) (emit : Nat)
    (data_callback callback_context : Nat) (sample_rate bit_rate frequency : Nat)
    (frequency_offset frequency_offset2 : Int) (gain : CString) (ppm : Nat → Nat)
    (spreading_factor : Nat) (inner_fec outer_fec id : CString) (dump : Option CString)
    (timeout audio : Nat) (t : dsss_transfer_s) (haudio : audio ≠ 0)
    (h : dsss_transfer_create_callback env radio_driver emit data_callback callback_context
      sample_rate bit_rate frequency frequency_offset gain ppm spreading_factor inner_fec
      outer_fec id dump timeout audio = CreateResult.session t) :
    (t.radio_type = .IO_TYPE ∨ t.radio_type = .FILENAME)
      ∧ t.sample_rate = ppm sample_rate / 2
      ∧ t.frequency = 0
      ∧ t.frequency_offset
          = to_long ((ppm frequency : Int) - ((t.sample_rate / 2 : Nat) : Int))
      ∧ ((ppm frequency : Int) - ((t.sample_rate / 2 : Nat) : Int) < 2 ^ 63 →
          t.sample_rate < 2 ^ 64 →
          t.frequency_offset = (ppm frequency : Int) - ((t.sample_rate / 2 : Nat) : Int))
      ∧ dsss_transfer_create_callback env radio_driver emit data_callback callback_context
          sample_rate bit_rate frequency frequency_offset2 gain ppm spreading_factor inner_fec
          outer_fec id dump timeout audio
        = dsss_transfer_create_callback env radio_driver emit data_callback callback_context
          sample_rate bit_rate frequency frequency_offset gain ppm spreading_factor inner_fec
          outer_fec id dump timeout audio := by
  obtain ⟨_, _, _, _, _, _, _, _, _, ha⟩ :=
    create_session_fields _ _ _ _ _ _ _ _ _ _ _ _ _ _ _ _ _ _ _ h
  obtain ⟨hs, hf, ho, hr⟩ := ha haudio
  refine ⟨hr, hs, hf, by rw [ho, hs], ?_, ?_⟩
  · intro hlt hsq
    rw [ho, hs]
    rw [hs] at hlt hsq
    simp only [to_long]
    omega
  · simp only [dsss_transfer_create_callback, audio_setup, haudio, ne_eq, not_false_eq_true,
      if_true]

/-- Witness of C25: an audio session at 48000 S/s and 1500 Hz; the caller's
offset of 777 Hz is not stored, the stored offset is `1500 - 12000`. -/
theorem audio_session_witness :
    sample_audio_session.sample_rate = id 48000 / 2
      ∧ sample_audio_session.frequency = 0
      ∧ sample_audio_session.frequency_offset
          = to_long (((id 1500 : Nat) : Int)
              - ((sample_audio_session.sample_rate / 2 : Nat) : Int))
      ∧ sample_audio_session.frequency_offset = -10500 :=
  have w := audio_session sample_env str_io 0 0 0 48000 100 1500 777 0 [48] id 64 str_h128
    str_none [84, 69, 83, 84] none 0 1 sample_audio_session (by decide) (by decide)
  ⟨w.2.1, w.2.2.1, w.2.2.2.1, rfl⟩

/-- C26 (evaluation at the failing input): with audio set, the IO radio, no
clock correction and a sample rate of 1 S/s, `dsss_transfer_create_callback`
returns a session whose stored sample rate is 0 (the bit rate and the spreading
factor are stored as given); the resampling ratio of `receive_frames` and the
normalised frequency offset then divide by that 0. -/
theorem create_stores_zero_sample_rate :
    ∃ t, dsss_transfer_create_callback sample_env str_io 0 0 0 1 100 434000000 0 [48] id 64
          str_h128 str_none [84, 69, 83, 84] none 0 1 = CreateResult.session t
      ∧ t.sample_rate = 0 ∧ t.bit_rate = 100 ∧ t.spreading_factor = 64 :=
  ⟨_, rfl, rfl, rfl, rfl⟩


end DsssTransfer
